import Mathlib

/-!
# Verification of `AutoencoderVidTok` (diffusers, `autoencoder_vidtok.py`)

A shallow embedding of the VidTok causal video autoencoder, faithful to
`src/diffusers/models/autoencoders/autoencoder_vidtok.py`, together with
theorems settling the frozen claims about it.

Real-number tensor entries are modelled by `ℚ` (the float operations used by
the layers under scrutiny — additions, multiplications, divisions by constant
pool sizes and linear blends — are field operations; the value of
`torch.sigmoid(mix_factor)` is passed as an explicit parameter `alpha`).
Tensors are index functions: a 5D tensor is `Nat → Nat → Nat → Nat → Nat → ℚ`
over (batch, channel, time, height, width), carried next to its extents.
`Option` models torch runtime errors.
-/

namespace VidTok

/-- Padding modes supported by `F.pad` as used in the file
(`"constant"`, `"replicate"`, `"reflect"`). -/
inductive PadMode where
  | constant
  | replicate
  | reflect
deriving DecidableEq, Repr

/-- One axis of `F.pad`: the original index corresponding to position `q` of an
axis of length `n` left-padded by `pl` (an `Int`: a negative value models
`F.pad`'s truncation of leading entries).  `none` means the position holds the
constant fill value `0`; `replicate` clamps to the edge and `reflect` mirrors
around it, matching torch semantics. -/
def padIdx (mode : PadMode) (pl : Int) (n : Nat) (q : Nat) : Option Nat :=
  let j : Int := (q : Int) - pl
  if j < 0 then
    match mode with
    | .constant => none
    | .replicate => some 0
    | .reflect => some (-j).toNat
  else if j < (n : Int) then
    some j.toNat
  else
    match mode with
    | .constant => none
    | .replicate => some (n - 1)
    | .reflect => some (2 * n - 2 - j.toNat)

/-- A 3D tensor (channel, time-or-row, column) as an index function. -/
abbrev T3 := Nat → Nat → Nat → ℚ

/-- A 5D tensor (batch, channel, time, height, width) as an index function. -/
abbrev T5 := Nat → Nat → Nat → Nat → Nat → ℚ

/-- Parameters of `nn.Conv1d`. -/
structure Conv1d where
  in_channels : Nat
  out_channels : Nat
  kernel_size : Nat
  stride : Nat
  dilation : Nat
  weight : Nat → Nat → Nat → ℚ
  bias : Nat → ℚ

/-- `nn.Conv1d` applied (without further padding) to an input `x` given as a
(channel, time) index function: the valid cross-correlation
`out[oc][t] = bias[oc] + Σ_ic Σ_i weight[oc][ic][i] · x[ic][t·s + i·d]`. -/
def conv1dApply (c : Conv1d) (x : Nat → Nat → ℚ) : Nat → Nat → ℚ :=
  fun oc t => c.bias oc +
    ∑ ic ∈ Finset.range c.in_channels, ∑ i ∈ Finset.range c.kernel_size,
      c.weight oc ic i * x ic (t * c.stride + i * c.dilation)

/-- Output length of a 1D valid convolution over an axis of length `n` with
kernel `k`, dilation `d`, stride `s` (torch: `⌊(n − d·(k−1) − 1)/s⌋ + 1`);
`0` marks the torch error case of an empty output. -/
def conv1dOutLen (n k d s : Nat) : Nat :=
  if d * (k - 1) + 1 ≤ n then (n - (d * (k - 1) + 1)) / s + 1 else 0

/-- The value of `F.pad(x, (pl, pr), mode)` on a (channel, time) input of time
length `T`; the right pad amount only extends the length and never affects
values at in-range positions, so it is not a parameter here. -/
def padded1 (mode : PadMode) (pl : Int) (T : Nat) (x : Nat → Nat → ℚ) :
    Nat → Nat → ℚ :=
  fun cch q =>
    match padIdx mode pl T q with
    | none => 0
    | some j => x cch j

/-- The pad mode actually used by `VidTokCausalConv1d.forward` /
`VidTokCausalConv3d.forward`:
`pad_mode = self.pad_mode if self.time_pad < x.shape[2] else "constant"`. -/
def effPadMode (pad_mode : PadMode) (time_pad : Int) (T : Nat) : PadMode :=
  if time_pad < (T : Int) then pad_mode else .constant

/-- `VidTokCausalConv1d`: a `Conv1d` plus the configured pad mode. -/
structure VidTokCausalConv1d where
  conv : Conv1d
  pad_mode : PadMode

namespace VidTokCausalConv1d

/-- `self.time_pad = dilation * (kernel_size - 1) + (1 - stride)` (a Python
int, possibly negative, hence `Int`). -/
def time_pad (m : VidTokCausalConv1d) : Int :=
  (m.conv.dilation : Int) * ((m.conv.kernel_size : Int) - 1) +
    (1 - (m.conv.stride : Int))

/-- `VidTokCausalConv1d.forward`: left-pad time by `time_pad` in the effective
pad mode (`time_causal_padding = (time_pad, 0)`), then convolve. -/
def forward (m : VidTokCausalConv1d) (T : Nat) (x : Nat → Nat → ℚ) :
    Nat → Nat → ℚ :=
  conv1dApply m.conv (padded1 (effPadMode m.pad_mode m.time_pad T) m.time_pad T x)

/-- Time length of the output of `VidTokCausalConv1d.forward`. -/
def outLen (m : VidTokCausalConv1d) (T : Nat) : Nat :=
  conv1dOutLen ((T : Int) + m.time_pad).toNat
    m.conv.kernel_size m.conv.dilation m.conv.stride

end VidTokCausalConv1d

/-- Parameters of `nn.Conv3d`; kernel/stride/dilation are per axis
(time, height, width). -/
structure Conv3d where
  in_channels : Nat
  out_channels : Nat
  kt : Nat
  kh : Nat
  kw : Nat
  st : Nat
  sh : Nat
  sw : Nat
  dt : Nat
  dh : Nat
  dw : Nat
  weight : Nat → Nat → Nat → Nat → Nat → ℚ
  bias : Nat → ℚ

/-- `nn.Conv3d` applied (without further padding) to a 5D input: valid
cross-correlation over the three trailing axes, summed over input channels. -/
def conv3dApply (c : Conv3d) (x : T5) : T5 :=
  fun b oc t h w => c.bias oc +
    ∑ ic ∈ Finset.range c.in_channels, ∑ i ∈ Finset.range c.kt,
      ∑ j ∈ Finset.range c.kh, ∑ l ∈ Finset.range c.kw,
        c.weight oc ic i j l *
          x b ic (t * c.st + i * c.dt) (h * c.sh + j * c.dh) (w * c.sw + l * c.dw)

/-- The value of a 6-tuple `F.pad` on the three trailing axes of a 5D input,
with left pads `pt, ph, pw` and axis lengths `T, H, W` (right pads only extend
lengths). -/
def padded3 (mode : PadMode) (pt ph pw : Int) (T H W : Nat) (x : T5) : T5 :=
  fun b cch t h w =>
    match padIdx mode pt T t, padIdx mode ph H h, padIdx mode pw W w with
    | some t0, some h0, some w0 => x b cch t0 h0 w0
    | _, _, _ => 0

/-- `VidTokCausalConv3d`: a `Conv3d` plus the configured pad mode. -/
structure VidTokCausalConv3d where
  conv : Conv3d
  pad_mode : PadMode

namespace VidTokCausalConv3d

/-- `time_pad = dilation[0] * (time_kernel_size - 1) + (1 - stride[0])`. -/
def time_pad (m : VidTokCausalConv3d) : Int :=
  (m.conv.dt : Int) * ((m.conv.kt : Int) - 1) + (1 - (m.conv.st : Int))

/-- `height_pad = dilation[1] * (height_kernel_size - 1) + (1 - stride[1])`. -/
def height_pad (m : VidTokCausalConv3d) : Int :=
  (m.conv.dh : Int) * ((m.conv.kh : Int) - 1) + (1 - (m.conv.sh : Int))

/-- `width_pad = dilation[2] * (height_kernel_size - 1) + (1 - stride[2])` —
transcribed exactly from source line 121, which uses `height_kernel_size`
(`m.conv.kh`) in place of the width kernel size. -/
def width_pad (m : VidTokCausalConv3d) : Int :=
  (m.conv.dw : Int) * ((m.conv.kh : Int) - 1) + (1 - (m.conv.sw : Int))

/-- `self.time_causal_padding = (width_pad // 2, width_pad - width_pad // 2,
height_pad // 2, height_pad - height_pad // 2, time_pad, 0)` — the `F.pad`
tuple (w-left, w-right, h-left, h-right, t-left, t-right); Python `//` is
floor division, hence `Int.fdiv`. -/
def time_causal_padding (m : VidTokCausalConv3d) :
    Int × Int × Int × Int × Int × Int :=
  (m.width_pad.fdiv 2, m.width_pad - m.width_pad.fdiv 2,
   m.height_pad.fdiv 2, m.height_pad - m.height_pad.fdiv 2,
   m.time_pad, 0)

/-- `VidTokCausalConv3d.forward`: pad by `time_causal_padding` in the
effective pad mode, then convolve. -/
def forward (m : VidTokCausalConv3d) (T H W : Nat) (x : T5) : T5 :=
  conv3dApply m.conv
    (padded3 (effPadMode m.pad_mode m.time_pad T)
      m.time_pad (m.height_pad.fdiv 2) (m.width_pad.fdiv 2) T H W x)

/-- Output extents (time, height, width) of `VidTokCausalConv3d.forward`. -/
def outDims (m : VidTokCausalConv3d) (T H W : Nat) : Nat × Nat × Nat :=
  (conv1dOutLen ((T : Int) + m.time_pad).toNat m.conv.kt m.conv.dt m.conv.st,
   conv1dOutLen ((H : Int) + m.height_pad).toNat m.conv.kh m.conv.dh m.conv.sh,
   conv1dOutLen ((W : Int) + m.width_pad).toNat m.conv.kw m.conv.dw m.conv.sw)

end VidTokCausalConv3d

/-- `nn.AvgPool3d((3, 1, 1), stride=(2, 1, 1))`: pooled value at `t` averages
the time window `[2t, 2t+2]`. -/
def avgPool3d311 (x : T5) : T5 :=
  fun b c t h w => (x b c (2 * t) h w + x b c (2 * t + 1) h w + x b c (2 * t + 2) h w) / 3

namespace VidTokDownsample3D

/-- Causal branch, path A of `VidTokDownsample3D.forward`:
`x1 = self.avg_pool(F.pad(x, (0, 0, 0, 0, 1, 0), mode="constant", value=0))`. -/
def pathACausal (T H W : Nat) (x : T5) : T5 :=
  avgPool3d311 (padded3 .constant 1 0 0 T H W x)

/-- Causal branch, path B of `VidTokDownsample3D.forward`: `x2 = self.conv(x)`
where `self.conv = VidTokCausalConv3d(in, out, 3, stride=(2, 1, 1))`. -/
def pathBCausal (m : VidTokCausalConv3d) (T H W : Nat) (x : T5) : T5 :=
  m.forward T H W x

/-- `VidTokDownsample3D.forward`, causal branch:
`alpha * x1 + (1 - alpha) * x2` with `alpha = torch.sigmoid(self.mix_factor)`
passed as the parameter `alpha`. -/
def forwardCausal (alpha : ℚ) (m : VidTokCausalConv3d) (T H W : Nat) (x : T5) : T5 :=
  fun b c t h w =>
    alpha * pathACausal T H W x b c t h w +
      (1 - alpha) * pathBCausal m T H W x b c t h w

/-- Non-causal branch: `x = F.pad(x, (0, 0, 0, 0, 0, 1), mode="constant",
value=0)` (the padded tensor is then fed to BOTH paths). -/
def padRightOne (T H W : Nat) (x : T5) : T5 :=
  padded3 .constant 0 0 0 T H W x

/-- Non-causal branch, path A: `x1 = self.avg_pool(x)` on the right-padded
tensor. -/
def pathAPlain (T H W : Nat) (x : T5) : T5 :=
  avgPool3d311 (padRightOne T H W x)

/-- Non-causal branch, path B: `x2 = self.conv(x)` on the right-padded tensor,
with `self.conv = nn.Conv3d(in, out, 3, stride=(2, 1, 1), padding=(0, 1, 1))`
(zero padding of 1 on each spatial side, none on time). -/
def pathBPlain (c : Conv3d) (T H W : Nat) (x : T5) : T5 :=
  conv3dApply c (padded3 .constant 0 1 1 (T + 1) H W (padRightOne T H W x))

/-- `VidTokDownsample3D.forward`, non-causal branch. -/
def forwardPlain (alpha : ℚ) (c : Conv3d) (T H W : Nat) (x : T5) : T5 :=
  fun b cc t h w =>
    alpha * pathAPlain T H W x b cc t h w +
      (1 - alpha) * pathBPlain c T H W x b cc t h w

end VidTokDownsample3D

namespace VidTokUpsample3D

/-- The interpolation stage of `VidTokUpsample3D.forward`: each batch sample is
passed through `F.interpolate(·, scale_factor=[2.0, 1.0, 1.0], mode="nearest")`
separately and the results are concatenated along the batch axis, so the value
at `(b, c, t, h, w)` is sample `b` nearest-interpolated: `x[b][c][t / 2][h][w]`. -/
def interpNearest2x (x : T5) : T5 :=
  fun b c t h w => x b c (t / 2) h w

/-- Path B, causal: `x_ = self.conv(x)` applied to the interpolated tensor,
with `self.conv = VidTokCausalConv3d(in, out, 3)` (stride 1). -/
def pathBCausal (m : VidTokCausalConv3d) (T H W : Nat) (x : T5) : T5 :=
  m.forward (2 * T) H W (interpNearest2x x)

/-- Path B, non-causal: `self.conv = nn.Conv3d(in, out, 3, padding=1)` applied
to the interpolated tensor (symmetric zero padding 1 on every axis). -/
def pathBPlain (c : Conv3d) (T H W : Nat) (x : T5) : T5 :=
  conv3dApply c (padded3 .constant 1 1 1 (2 * T) H W (interpNearest2x x))

/-- `VidTokUpsample3D.forward`, causal: `alpha * x + (1 - alpha) * x_` where
`x` is the interpolated tensor (path A) and `x_ = self.conv(x)` (path B). -/
def forwardCausal (alpha : ℚ) (m : VidTokCausalConv3d) (T H W : Nat) (x : T5) : T5 :=
  fun b c t h w =>
    alpha * interpNearest2x x b c t h w +
      (1 - alpha) * pathBCausal m T H W x b c t h w

/-- `VidTokUpsample3D.forward`, non-causal branch. -/
def forwardPlain (alpha : ℚ) (c : Conv3d) (T H W : Nat) (x : T5) : T5 :=
  fun b cc t h w =>
    alpha * interpNearest2x x b cc t h w +
      (1 - alpha) * pathBPlain c T H W x b cc t h w

end VidTokUpsample3D

/-- The all-zero 5D tensor. -/
def zero5 : T5 := fun _ _ _ _ _ => 0

/-- Concrete mixed-downsample convolution for the C2 counterexample:
1 → 1 channels, kernel 3, stride `(2, 1, 1)` (as built by
`VidTokDownsample3D.__init__` with `is_causal=True`), all weights 0, bias 1. -/
def mixCexConv : Conv3d :=
  { in_channels := 1, out_channels := 1, kt := 3, kh := 3, kw := 3,
    st := 2, sh := 1, sw := 1, dt := 1, dh := 1, dw := 1,
    weight := fun _ _ _ _ _ => 0, bias := fun _ => 1 }

/-- The C2 counterexample causal convolution (default `pad_mode="constant"`). -/
def mixCexCausal : VidTokCausalConv3d :=
  { conv := mixCexConv, pad_mode := .constant }

/-- The C3 failing input: a `VidTokCausalConv3d` with kernel size `(3, 3, 5)`,
stride 1, dilation 1 (weights irrelevant). -/
def widthBugConv : VidTokCausalConv3d :=
  { conv := { in_channels := 1, out_channels := 1, kt := 3, kh := 3, kw := 5,
              st := 1, sh := 1, sw := 1, dt := 1, dh := 1, dw := 1,
              weight := fun _ _ _ _ _ => 0, bias := fun _ => 0 },
    pad_mode := .constant }

/-- Stride-2 1D causal convolution for the C5 counterexample (the pattern of
the temporal-downsample convolution): kernel 3, stride 2, dilation 1, single
channel, all weights 1, bias 0. -/
def strideTwoConv : VidTokCausalConv1d :=
  { conv := { in_channels := 1, out_channels := 1, kernel_size := 3,
              stride := 2, dilation := 1,
              weight := fun _ _ _ => 1, bias := fun _ => 0 },
    pad_mode := .constant }

/-- C5 counterexample input: zero except value 9 at time step 3. -/
def bump3 : Nat → Nat → ℚ := fun _ u => if u = 3 then 9 else 0

/-- Stride-1 1D causal convolution for the C5 witness: kernel 3, stride 1,
dilation 1, single channel, all weights 1, bias 0. -/
def strideOneConv : VidTokCausalConv1d :=
  { conv := { in_channels := 1, out_channels := 1, kernel_size := 3,
              stride := 1, dilation := 1,
              weight := fun _ _ _ => 1, bias := fun _ => 0 },
    pad_mode := .constant }

/-- C5 witness input: zero except value 5 at time step 2. -/
def bump2 : Nat → Nat → ℚ := fun _ u => if u = 2 then 5 else 0

/-- The all-zero (channel, time) input. -/
def zero2 : Nat → Nat → ℚ := fun _ _ => 0

/-- The constructor argument checks of `AutoencoderVidTok.__init__` (lines
844-849): `assert self.regularizer in ["kl", "fsq"]` and, for `"fsq"`,
`assert z_channels == int(math.log(codebook_size, 8)) and double_z is False`.
Python's `int(math.log(c, 8))` (base-8 float logarithm truncated to an int)
is modelled by `Nat.log 8 c`, the floor of the base-8 logarithm.
`true` means construction passes the asserts. -/
def initChecks (regularizer : String) (z_channels : Nat) (double_z : Bool)
    (codebook_size : Nat) : Bool :=
  (regularizer == "kl" || regularizer == "fsq") &&
    (if regularizer == "fsq" then
      (z_channels == Nat.log 8 codebook_size) && (double_z == false)
    else true)

/-- The tiling-related mutable state of `AutoencoderVidTok` read and written
by `enable_tiling`; overlap factors are Python floats, modelled by `ℚ`. -/
structure TilingState where
  use_tiling : Bool
  tile_sample_min_height : Nat
  tile_sample_min_width : Nat
  tile_latent_min_height : Nat
  tile_latent_min_width : Nat
  tile_overlap_factor_height : ℚ
  tile_overlap_factor_width : ℚ
deriving DecidableEq

/-- Python `new or old` for an optional int argument: `None` and `0` are both
falsy and keep `old`. -/
def orKeepNat (new : Option Nat) (old : Nat) : Nat :=
  match new with
  | none => old
  | some v => if v = 0 then old else v

/-- Python `new or old` for an optional float argument: `None` and `0.0` are
both falsy and keep `old`. -/
def orKeepRat (new : Option ℚ) (old : ℚ) : ℚ :=
  match new with
  | none => old
  | some v => if v = 0 then old else v

/-- `AutoencoderVidTok.enable_tiling` (lines 903-911): switch tiling on,
combine each argument with the stored value via `or` (Python truthiness),
and recompute the latent minima as
`int(tile_sample_min / (2 ** (len(self.config.ch_mult) - 1)))` — float
division truncated, i.e. floor division for nonnegative ints. -/
def enable_tiling (chMultLen : Nat) (s : TilingState)
    (new_tsh new_tsw : Option Nat) (new_ofh new_ofw : Option ℚ) : TilingState :=
  let tsh := orKeepNat new_tsh s.tile_sample_min_height
  let tsw := orKeepNat new_tsw s.tile_sample_min_width
  { use_tiling := true
    tile_sample_min_height := tsh
    tile_sample_min_width := tsw
    tile_latent_min_height := tsh / 2 ^ (chMultLen - 1)
    tile_latent_min_width := tsw / 2 ^ (chMultLen - 1)
    tile_overlap_factor_height := orKeepRat new_ofh s.tile_overlap_factor_height
    tile_overlap_factor_width := orKeepRat new_ofw s.tile_overlap_factor_width }

/-- A spatial tile of the tiled encode/decode grid: a 5D value plus its
extents (`shape[3] = H`, `shape[4] = W`). -/
structure Tile where
  B : Nat
  C : Nat
  T : Nat
  H : Nat
  W : Nat
  val : T5

/-- `AutoencoderVidTok.blend_v` (lines 993-999):
`blend_extent = min(a.shape[3], b.shape[3], blend_extent)`, then row `y` of
`b` (for `y < blend_extent`) is overwritten in place with
`a[..., -blend_extent + y, :] * (1 - y/blend_extent)
 + b[..., y, :] * (y/blend_extent)`; the (mutated) `b` is returned. -/
def blend_v (a b : Tile) (blend_extent : Nat) : Tile :=
  let e := min (min a.H b.H) blend_extent
  { b with
    val := fun bb cc tt y x =>
      if y < e then
        a.val bb cc tt (a.H - e + y) x * (1 - (y : ℚ) / (e : ℚ))
          + b.val bb cc tt y x * ((y : ℚ) / (e : ℚ))
      else b.val bb cc tt y x }

/-- `AutoencoderVidTok.blend_h` (lines 1001-1007): the same along the width
axis (`shape[4]`). -/
def blend_h (a b : Tile) (blend_extent : Nat) : Tile :=
  let e := min (min a.W b.W) blend_extent
  { b with
    val := fun bb cc tt y x =>
      if x < e then
        a.val bb cc tt y (a.W - e + x) * (1 - (x : ℚ) / (e : ℚ))
          + b.val bb cc tt y x * ((x : ℚ) / (e : ℚ))
      else b.val bb cc tt y x }

/-- One iteration of the stitching loop of `tiled_encode` / `tiled_decode`
(lines 1044-1057 / 1090-1104) at grid position `(i, j)`:
`tile = rows[i][j]`; `if i > 0: tile = blend_v(rows[i-1][j], tile, ...)`;
`if j > 0: tile = blend_h(row[j-1], tile, ...)`.  `blend_v`/`blend_h`
mutate their second argument in place in Python, so the grid entry `(i, j)`
is updated with the blended tile — modelled by returning the updated grid. -/
def stitchStep (beh bew : Nat) (g : Nat → Nat → Tile) (i j : Nat) :
    Nat → Nat → Tile :=
  fun i' j' =>
    if i' = i ∧ j' = j then
      if 0 < j then
        blend_h (g i (j - 1))
          (if 0 < i then blend_v (g (i - 1) j) (g i j) beh else g i j) bew
      else
        if 0 < i then blend_v (g (i - 1) j) (g i j) beh else g i j
    else g i' j'

/-- The inner (column) loop of the stitching pass for row `i`. -/
def stitchCols (beh bew i : Nat) (js : List Nat) (g : Nat → Nat → Tile) :
    Nat → Nat → Tile :=
  js.foldl (fun g j => stitchStep beh bew g i j) g

/-- The outer (row) loop of the stitching pass. -/
def stitchRows (beh bew ncols : Nat) (is : List Nat) (g : Nat → Nat → Tile) :
    Nat → Nat → Tile :=
  is.foldl (fun g i => stitchCols beh bew i (List.range ncols) g) g

/-- The full stitching pass over an `nrows × ncols` grid `g` of raw
encoder/decoder tile outputs. -/
def stitchLoop (beh bew nrows ncols : Nat) (g : Nat → Nat → Tile) :
    Nat → Nat → Tile :=
  stitchRows beh bew ncols (List.range nrows) g

/-- The reference recurrence for the blended tile at `(i, j)`: the current raw
tile, vertically blended with the ALREADY top- and left-blended tile of row
`i-1` (not the raw output), then horizontally blended with the already-blended
tile at `(i, j-1)`. -/
def blendedRef (raw : Nat → Nat → Tile) (beh bew : Nat) : Nat → Nat → Tile
  | i, j =>
    if 0 < j then
      blend_h (blendedRef raw beh bew i (j - 1))
        (if 0 < i then blend_v (blendedRef raw beh bew (i - 1) j) (raw i j) beh
         else raw i j) bew
    else
      if 0 < i then blend_v (blendedRef raw beh bew (i - 1) j) (raw i j) beh
      else raw i j
termination_by i j => (i, j)
decreasing_by
  · exact Prod.Lex.right _ (by omega)
  · exact Prod.Lex.left _ _ (by omega)
  · exact Prod.Lex.left _ _ (by omega)

/-- Loop invariant for the stitching pass: all rows before `k`, and the first
`l` column positions of row `k`, hold their blended tiles; every other grid
position still holds its raw tile. -/
def stitchInv (raw : Nat → Nat → Tile) (beh bew ncols k l : Nat)
    (g : Nat → Nat → Tile) : Prop :=
  ∀ i j, g i j =
    if j < ncols ∧ (i < k ∨ (i = k ∧ j < l)) then blendedRef raw beh bew i j
    else raw i j

/-- Concrete 2×2 raw tile grid for the C10 witness. -/
def rawGridW : Nat → Nat → Tile :=
  fun i j => ⟨1, 1, 1, 2, 2, fun _ _ _ _ _ => (i : ℚ) + 2 * (j : ℚ)⟩

/-! ### Shape semantics

Shape-level semantics of the encoder/decoder pipeline, used for the claims
about tensor extents.  Each layer becomes a function `Shape5 → Option Shape5`
computed from the layer's convolution parameters exactly as constructed in the
source; `none` models a torch runtime error (channel mismatch, empty
convolution output, ...). -/

/-- The shape of a 5D tensor (batch, channel, time, height, width). -/
structure Shape5 where
  B : Nat
  C : Nat
  T : Nat
  H : Nat
  W : Nat
deriving DecidableEq, Repr

/-- The shape of a 4D tensor, for the `(b t) c h w` stage of
`spatial_temporal_resblk`. -/
structure Shape4 where
  B : Nat
  C : Nat
  H : Nat
  W : Nat
deriving DecidableEq, Repr

/-- The shape of a 3D tensor, for the `(b h w) c t` stage of
`spatial_temporal_resblk`. -/
structure Shape3 where
  B : Nat
  C : Nat
  T : Nat
deriving DecidableEq, Repr

/-- Output length of one convolution axis: the axis of length `n` is padded by
`pl` on the left and `pr` on the right (`Int`s — negative amounts truncate,
as in `F.pad`), then convolved with kernel `k`, dilation `d`, stride `s`
(torch: `⌊(len − d·(k−1) − 1)/s⌋ + 1`); `none` is the torch error for an
empty output. -/
def convAxis (n : Nat) (pl pr : Int) (k d s : Nat) : Option Nat :=
  let m : Int := (n : Int) + pl + pr
  if ((d * (k - 1) + 1 : Nat) : Int) ≤ m then
    some ((m - ((d * (k - 1) + 1 : Nat) : Int)).toNat / s + 1)
  else none

/-- Shape of `VidTokCausalConv3d` with the given construction parameters:
time is left-padded by `time_pad`, the spatial axes split their pads in two
(`pad // 2`, `pad - pad // 2`), and — exactly as in source line 121 — the
width pad is computed from the HEIGHT kernel size. -/
def causalConv3dShape (inC outC kt kh kw st sh sw dt dh dw : Nat)
    (s : Shape5) : Option Shape5 :=
  if s.C = inC then
    let tp : Int := (dt : Int) * ((kt : Int) - 1) + (1 - (st : Int))
    let hp : Int := (dh : Int) * ((kh : Int) - 1) + (1 - (sh : Int))
    let wp : Int := (dw : Int) * ((kh : Int) - 1) + (1 - (sw : Int))
    match convAxis s.T tp 0 kt dt st,
        convAxis s.H (hp.fdiv 2) (hp - hp.fdiv 2) kh dh sh,
        convAxis s.W (wp.fdiv 2) (wp - wp.fdiv 2) kw dw sw with
    | some t, some h, some w => some ⟨s.B, outC, t, h, w⟩
    | _, _, _ => none
  else none

/-- Shape of a plain `nn.Conv3d` with symmetric per-axis zero padding
`(pt, ph, pw)` and dilation 1 (as used in this file). -/
def conv3dShape (inC outC kt kh kw st sh sw pt ph pw : Nat)
    (s : Shape5) : Option Shape5 :=
  if s.C = inC then
    match convAxis s.T pt pt kt 1 st, convAxis s.H ph ph kh 1 sh,
        convAxis s.W pw pw kw 1 sw with
    | some t, some h, some w => some ⟨s.B, outC, t, h, w⟩
    | _, _, _ => none
  else none

/-- Shape of `nn.Conv2d` (square kernel `k`, stride `s`, symmetric padding
`p`), applied framewise. -/
def conv2dShape (inC outC k st p : Nat) (s : Shape4) : Option Shape4 :=
  if s.C = inC then
    match convAxis s.H p p k 1 st, convAxis s.W p p k 1 st with
    | some h, some w => some ⟨s.B, outC, h, w⟩
    | _, _ => none
  else none

/-- Shape of `VidTokCausalConv1d` (kernel `k`, stride `st`, dilation `dil`):
time left-padded by `dil·(k−1) + (1−st)`. -/
def causalConv1dShape (inC outC k st dil : Nat) (s3 : Shape3) : Option Shape3 :=
  if s3.C = inC then
    let tp : Int := (dil : Int) * ((k : Int) - 1) + (1 - (st : Int))
    match convAxis s3.T tp 0 k dil st with
    | some t => some ⟨s3.B, outC, t⟩
    | none => none
  else none

/-- Shape of a plain `nn.Conv1d` with symmetric padding `p`, dilation 1. -/
def conv1dShape (inC outC k st p : Nat) (s3 : Shape3) : Option Shape3 :=
  if s3.C = inC then
    match convAxis s3.T p p k 1 st with
    | some t => some ⟨s3.B, outC, t⟩
    | none => none
  else none

/-- The 3×3×3 stride-1 convolution produced by `make_conv_cls(..., 3, 1, 1)`:
`VidTokCausalConv3d` when causal, `nn.Conv3d(padding=1)` otherwise. -/
def makeConv3Shape (isCausal : Bool) (inC outC : Nat) (s : Shape5) :
    Option Shape5 :=
  if isCausal then causalConv3dShape inC outC 3 3 3 1 1 1 1 1 1 s
  else conv3dShape inC outC 3 3 3 1 1 1 1 1 1 s

/-- The 1×1×1 stride-1 convolution produced by `make_conv_cls(..., 1, 1, 0)`. -/
def makeConv1Shape (isCausal : Bool) (inC outC : Nat) (s : Shape5) :
    Option Shape5 :=
  if isCausal then causalConv3dShape inC outC 1 1 1 1 1 1 1 1 1 s
  else conv3dShape inC outC 1 1 1 1 1 1 0 0 0 s

/-- Shape of the 2D `VidTokResnetBlock` (`btype="2d"`, plain `nn.Conv2d`s):
norm, 3×3 conv `inC → outC`, norm, 3×3 conv `outC → outC`, and the 1×1
`nin_shortcut` when the channel counts differ (the encoder/decoder never set
`conv_shortcut`, so the 3×3 shortcut variant never occurs); the residual
addition requires both branches to have the same shape. -/
def resnet2dShape (inC outC : Nat) (s : Shape4) : Option Shape4 :=
  match conv2dShape inC outC 3 1 1 s with
  | none => none
  | some h1 =>
    match conv2dShape outC outC 3 1 1 h1 with
    | none => none
    | some h2 =>
      match (if inC ≠ outC then conv2dShape inC outC 1 1 0 s else some s) with
      | none => none
      | some xs => if h2 = xs then some h2 else none

/-- Shape of the 1D `VidTokResnetBlock` (`btype="1d"`). -/
def resnet1dShape (isCausal : Bool) (inC outC : Nat) (s : Shape3) :
    Option Shape3 :=
  let conv := fun (a b : Nat) (u : Shape3) =>
    if isCausal then causalConv1dShape a b 3 1 1 u else conv1dShape a b 3 1 1 u
  let nin := fun (a b : Nat) (u : Shape3) =>
    if isCausal then causalConv1dShape a b 1 1 1 u else conv1dShape a b 1 1 0 u
  match conv inC outC s with
  | none => none
  | some h1 =>
    match conv outC outC h1 with
    | none => none
    | some h2 =>
      match (if inC ≠ outC then nin inC outC s else some s) with
      | none => none
      | some xs => if h2 = xs then some h2 else none

/-- Shape of the 3D `VidTokResnetBlock` (`btype="3d"`). -/
def resnet3dShape (isCausal : Bool) (inC outC : Nat) (s : Shape5) :
    Option Shape5 :=
  match makeConv3Shape isCausal inC outC s with
  | none => none
  | some h1 =>
    match makeConv3Shape isCausal outC outC h1 with
    | none => none
    | some h2 =>
      match (if inC ≠ outC then makeConv1Shape isCausal inC outC s else some s) with
      | none => none
      | some xs => if h2 = xs then some h2 else none

/-- Shape of `VidTokAttnBlockWrapper`: norm and the four 1×1×1 projections
preserve the extents, `F.scaled_dot_product_attention` preserves the
`b t (h w) c` shape, and the output is added residually to the input. -/
def attn3dShape (isCausal : Bool) (cC : Nat) (s : Shape5) : Option Shape5 :=
  match makeConv1Shape isCausal cC cC s with
  | none => none
  | some q =>
    match makeConv1Shape isCausal cC cC q with
    | none => none
    | some h2 => if h2 = s then some h2 else none

/-- Shape of `spatial_temporal_resblk`: rearrange `b c t h w → (b t) c h w`,
apply the spatial (2D) block, rearrange back, rearrange `b c t h w →
(b h w) c t`, apply the temporal (1D) block, rearrange back.  The einops
rearranges require the grouped axis to factor exactly. -/
def stResblkShape (isCausal : Bool) (inC outC : Nat) (s : Shape5) :
    Option Shape5 :=
  match resnet2dShape inC outC ⟨s.B * s.T, s.C, s.H, s.W⟩ with
  | none => none
  | some s4 =>
    if s4.B = s.B * s.T then
      match resnet1dShape isCausal outC outC ⟨s.B * s4.H * s4.W, s4.C, s.T⟩ with
      | none => none
      | some s3 =>
        if s3.B = s.B * s4.H * s4.W then some ⟨s.B, s3.C, s3.T, s4.H, s4.W⟩
        else none
    else none

/-- Modelled from the spec: `VidTokDownsample2D` (diffusers `downsampling.py`,
not under `src/`) halves the two spatial extents ("spatial downsampling every
level but the last", "total spatial downsampling = 2^(L−1)") and preserves the
channel count; the spec constrains inputs to extents divisible by the total
downsampling factor, so only even positive extents are modelled. -/
def downsample2dShape (cC : Nat) (s : Shape4) : Option Shape4 :=
  if s.C = cC ∧ s.H % 2 = 0 ∧ s.W % 2 = 0 ∧ 0 < s.H ∧ 0 < s.W then
    some ⟨s.B, s.C, s.H / 2, s.W / 2⟩
  else none

/-- Modelled from the spec: `VidTokUpsample2D` (diffusers `upsampling.py`, not
under `src/`) doubles the two spatial extents and preserves the channels. -/
def upsample2dShape (cC : Nat) (s : Shape4) : Option Shape4 :=
  if s.C = cC then some ⟨s.B, s.C, s.H * 2, s.W * 2⟩ else none

/-- Shape of `nn.AvgPool3d((3,1,1), stride=(2,1,1))` (no padding): requires a
time extent of at least 3 and nonempty spatial extents. -/
def avgPool3d311Shape (s : Shape5) : Option Shape5 :=
  if 3 ≤ s.T ∧ 0 < s.H ∧ 0 < s.W then
    some ⟨s.B, s.C, (s.T - 3) / 2 + 1, s.H, s.W⟩
  else none

/-- Shape of `VidTokDownsample3D.forward`: path A zero-pads time by one frame
(left if causal, right otherwise) and average-pools; path B is the strided
convolution (`VidTokCausalConv3d(..., stride=(2,1,1))` if causal, else
`nn.Conv3d(..., stride=(2,1,1), padding=(0,1,1))` applied to the padded
tensor); the blend `α·x1 + (1−α)·x2` requires both paths to agree in shape. -/
def downsample3dShape (isCausal : Bool) (inC outC : Nat) (s : Shape5) :
    Option Shape5 :=
  if isCausal then
    match avgPool3d311Shape ⟨s.B, s.C, s.T + 1, s.H, s.W⟩,
        causalConv3dShape inC outC 3 3 3 2 1 1 1 1 1 s with
    | some a, some b => if a = b then some b else none
    | _, _ => none
  else
    match avgPool3d311Shape ⟨s.B, s.C, s.T + 1, s.H, s.W⟩,
        conv3dShape inC outC 3 3 3 2 1 1 0 1 1 ⟨s.B, s.C, s.T + 1, s.H, s.W⟩ with
    | some a, some b => if a = b then some b else none
    | _, _ => none

/-- Shape of `VidTokUpsample3D.forward`: per-sample nearest interpolation
doubles the time extent (`torch.cat` of the per-sample list fails on an empty
batch), then the 3×3×3 stride-1 convolution; the blend requires both paths to
agree in shape. -/
def upsample3dShape (isCausal : Bool) (inC outC : Nat) (s : Shape5) :
    Option Shape5 :=
  if s.B = 0 then none
  else
    match makeConv3Shape isCausal inC outC ⟨s.B, s.C, 2 * s.T, s.H, s.W⟩ with
    | some b => if (⟨s.B, s.C, 2 * s.T, s.H, s.W⟩ : Shape5) = b then some b
        else none
    | none => none

/-- `self.tempo_ds = [self.num_resolutions - 2, self.num_resolutions - 3]` —
Python ints, which go negative for short `ch_mult` lists. -/
def tempoDs (L : Nat) : List Int := [(L : Int) - 2, (L : Int) - 3]

/-- `self.tempo_us = [1, 2]` in `VidTokDecoder3D`. -/
def tempoUs : List Nat := [1, 2]

/-- Configuration of `VidTokEncoder3D`. -/
structure EncCfg where
  in_channels : Nat
  ch : Nat
  ch_mult : List Nat
  num_res_blocks : Nat
  z_channels : Nat
  double_z : Bool
  is_causal : Bool

/-- `block_in` at entry of encoder level `i`:
`ch * in_ch_mult[i]` with `in_ch_mult = (1,) + ch_mult`. -/
def encBlockIn (cfg : EncCfg) (i : Nat) : Nat :=
  cfg.ch * (1 :: cfg.ch_mult).getD i 0

/-- `block_out` of encoder level `i`: `ch * ch_mult[i]`. -/
def encBlockOut (cfg : EncCfg) (i : Nat) : Nat :=
  cfg.ch * cfg.ch_mult.getD i 0

/-- `block_in` after the block loop of level `i` (it is only reassigned when
at least one resblock is constructed). -/
def encLevelFinalCh (cfg : EncCfg) (i : Nat) : Nat :=
  if cfg.num_res_blocks = 0 then encBlockIn cfg i else encBlockOut cfg i

/-- Shape of a run of `n` spatial/temporal resblock pairs
(`spatial_temporal_resblk` applications): the first pair maps `bIn → bOut`,
the rest `bOut → bOut` (this also matches the decoder, which runs
`num_res_blocks + 1` pairs). -/
def blocksShape (isCausal : Bool) (bIn bOut n : Nat) (s : Shape5) :
    Option Shape5 :=
  match n with
  | 0 => some s
  | Nat.succ m =>
    match stResblkShape isCausal bIn bOut s with
    | none => none
    | some s2 => blocksShape isCausal bOut bOut m s2

/-- Shape of one encoder pyramid level `i` (blocks; if not the last level:
framewise spatial downsample, and temporal downsample when
`i_level in self.tempo_ds`). -/
def encLevelShape (cfg : EncCfg) (i : Nat) (s : Shape5) : Option Shape5 :=
  let L := cfg.ch_mult.length
  match blocksShape cfg.is_causal (encBlockIn cfg i) (encBlockOut cfg i)
      cfg.num_res_blocks s with
  | none => none
  | some s1 =>
    if i ≠ L - 1 then
      match downsample2dShape (encLevelFinalCh cfg i)
          ⟨s1.B * s1.T, s1.C, s1.H, s1.W⟩ with
      | none => none
      | some s4 =>
        if s4.B = s1.B * s1.T then
          if (i : Int) ∈ tempoDs L then
            downsample3dShape cfg.is_causal (encLevelFinalCh cfg i)
              (encLevelFinalCh cfg i) ⟨s1.B, s4.C, s1.T, s4.H, s4.W⟩
          else some ⟨s1.B, s4.C, s1.T, s4.H, s4.W⟩
        else none
    else some s1

/-- Shape of a run of encoder levels. -/
def encLevelsShape (cfg : EncCfg) (levels : List Nat) (s : Shape5) :
    Option Shape5 :=
  match levels with
  | [] => some s
  | i :: rest =>
    match encLevelShape cfg i s with
    | none => none
    | some s2 => encLevelsShape cfg rest s2

/-- Shape of the middle block (3D resnet, 3D causal attention, 3D resnet). -/
def midShape (isCausal : Bool) (cC : Nat) (s : Shape5) : Option Shape5 :=
  match resnet3dShape isCausal cC cC s with
  | none => none
  | some s1 =>
    match attn3dShape isCausal cC s1 with
    | none => none
    | some s2 => resnet3dShape isCausal cC cC s2

/-- Shape of `VidTokEncoder3D.forward`: `conv_in`, the pyramid levels, the
middle block, `norm_out` (shape-preserving, requires matching channels),
`conv_out` to `2·z_channels` if `double_z` else `z_channels`. -/
def encoderShape (cfg : EncCfg) (s : Shape5) : Option Shape5 :=
  if cfg.ch_mult.isEmpty then none
  else
    let L := cfg.ch_mult.length
    match makeConv3Shape cfg.is_causal cfg.in_channels cfg.ch s with
    | none => none
    | some s1 =>
      match encLevelsShape cfg (List.range L) s1 with
      | none => none
      | some s2 =>
        match midShape cfg.is_causal (encLevelFinalCh cfg (L - 1)) s2 with
        | none => none
        | some s3 =>
          if s3.C = encLevelFinalCh cfg (L - 1) then
            makeConv3Shape cfg.is_causal (encLevelFinalCh cfg (L - 1))
              (if cfg.double_z then 2 * cfg.z_channels else cfg.z_channels) s3
          else none

/-- Configuration of `VidTokDecoder3D`. -/
structure DecCfg where
  ch : Nat
  ch_mult : List Nat
  num_res_blocks : Nat
  z_channels : Nat
  out_channels : Nat
  is_causal : Bool

/-- `block_in` at entry of decoder level `i` (levels are processed from
`L−1` down to `0`; the chain starts at `ch * ch_mult[L−1]`). -/
def decBlockIn (cfg : DecCfg) (i : Nat) : Nat :=
  cfg.ch * cfg.ch_mult.getD (min (i + 1) (cfg.ch_mult.length - 1)) 0

/-- `block_out` of decoder level `i`: `ch * ch_mult[i]`. -/
def decBlockOut (cfg : DecCfg) (i : Nat) : Nat :=
  cfg.ch * cfg.ch_mult.getD i 0

/-- Shape of one decoder pyramid level `i` (`num_res_blocks + 1` block pairs;
if `i ≠ 0`: framewise spatial upsample, and temporal upsample when
`i_level in self.tempo_us`). -/
def decLevelShape (cfg : DecCfg) (i : Nat) (s : Shape5) : Option Shape5 :=
  match blocksShape cfg.is_causal (decBlockIn cfg i) (decBlockOut cfg i)
      (cfg.num_res_blocks + 1) s with
  | none => none
  | some s1 =>
    if i ≠ 0 then
      match upsample2dShape (decBlockOut cfg i)
          ⟨s1.B * s1.T, s1.C, s1.H, s1.W⟩ with
      | none => none
      | some s4 =>
        if s4.B = s1.B * s1.T then
          if i ∈ tempoUs then
            upsample3dShape cfg.is_causal (decBlockOut cfg i)
              (decBlockOut cfg i) ⟨s1.B, s4.C, s1.T, s4.H, s4.W⟩
          else some ⟨s1.B, s4.C, s1.T, s4.H, s4.W⟩
        else none
    else some s1

/-- Shape of a run of decoder levels (processed in the given order). -/
def decLevelsShape (cfg : DecCfg) (levels : List Nat) (s : Shape5) :
    Option Shape5 :=
  match levels with
  | [] => some s
  | i :: rest =>
    match decLevelShape cfg i s with
    | none => none
    | some s2 => decLevelsShape cfg rest s2

/-- Shape of `VidTokDecoder3D.forward`: `conv_in` from `z_channels`, middle
block, the levels from `L−1` down to `0`, `norm_out`, `conv_out` to
`out_channels`. -/
def decoderShape (cfg : DecCfg) (z : Shape5) : Option Shape5 :=
  if cfg.ch_mult.isEmpty then none
  else
    let L := cfg.ch_mult.length
    match makeConv3Shape cfg.is_causal cfg.z_channels
        (cfg.ch * cfg.ch_mult.getD (L - 1) 0) z with
    | none => none
    | some s1 =>
      match midShape cfg.is_causal (cfg.ch * cfg.ch_mult.getD (L - 1) 0) s1 with
      | none => none
      | some s2 =>
        match decLevelsShape cfg (List.range L).reverse s2 with
        | none => none
        | some s3 =>
          if s3.C = cfg.ch * cfg.ch_mult.getD 0 0 then
            makeConv3Shape cfg.is_causal (cfg.ch * cfg.ch_mult.getD 0 0)
              cfg.out_channels s3
          else none

/-- Constructor configuration of `AutoencoderVidTok` (the source field
`temporal_compression_ratio` is `temporal_compression` here).  Fields that
cannot affect the modelled forward pass are omitted: `codebook_size` only
feeds the constructor assert (see `initChecks`) and the FSQ level list, and
`sample_height`/`sample_width` only seed the tiling thresholds, which are
unused while `use_tiling` is `False`. -/
structure ModelCfg where
  in_channels : Nat
  out_channels : Nat
  ch : Nat
  ch_mult : List Nat
  z_channels : Nat
  double_z : Bool
  num_res_blocks : Nat
  temporal_compression : Nat
  regularizer : String
  is_causal : Bool

/-- The encoder configuration built by `AutoencoderVidTok.__init__`. -/
def ModelCfg.encCfg (c : ModelCfg) : EncCfg :=
  ⟨c.in_channels, c.ch, c.ch_mult, c.num_res_blocks, c.z_channels,
   c.double_z, c.is_causal⟩

/-- The decoder configuration built by `AutoencoderVidTok.__init__`. -/
def ModelCfg.decCfg (c : ModelCfg) : DecCfg :=
  ⟨c.ch, c.ch_mult, c.num_res_blocks, c.z_channels, c.out_channels,
   c.is_causal⟩

/-- Modelled from the spec: `DiagonalGaussianDistribution` (`vae.py`, not
under `src/`) packs mean and log-variance along the channel axis ("channel
dimension = z_channels (or 2×z_channels when double_z for mean/log-variance
packing)"), so `sample()`/`mode()` return a tensor with half the channels;
only even channel counts are modelled. -/
def gaussianShape (s : Shape5) : Option Shape5 :=
  if s.C % 2 = 0 then some ⟨s.B, s.C / 2, s.T, s.H, s.W⟩ else none

/-- Modelled from the spec: the FSQ regularizer (`vae.py`, not under `src/`)
quantizes per element ("mapping continuous latents to a fixed grid of
quantization levels per channel"), preserving the shape. -/
def fsqShape (s : Shape5) : Option Shape5 := some s

/-- Shape of `AutoencoderVidTok.forward` on a freshly constructed model
(`__init__` sets `use_slicing = use_tiling = False`, so `encode`/`decode`
reduce to the plain encoder/decoder): left-pad time (replicate) up to the next
multiple of `temporal_compression_ratio` when misaligned, encode,
sample-or-mode the posterior (`"kl"`) or quantize (`"fsq"`) — both
shape-described above — decode, then drop the first `time_padding` output
frames (`dec[:, :, time_padding:, :, :]`). -/
def forwardShape (cfg : ModelCfg) (s : Shape5) : Option Shape5 :=
  let tc := cfg.temporal_compression
  let pad := if s.T % tc ≠ 0 then tc - s.T % tc else 0
  match encoderShape cfg.encCfg ⟨s.B, s.C, s.T + pad, s.H, s.W⟩ with
  | none => none
  | some zraw =>
    match (if cfg.regularizer == "kl" then gaussianShape zraw
           else fsqShape zraw) with
    | none => none
    | some z =>
      match decoderShape cfg.decCfg z with
      | none => none
      | some dec => some ⟨dec.B, dec.C, dec.T - pad, dec.H, dec.W⟩

/-- Whether encoder level `i` temporally downsamples: the level has a
downsample stage (`i != num_resolutions - 1`) and `i` is in `tempo_ds`. -/
def encHasTempoDs (L i : Nat) : Prop :=
  i ≠ L - 1 ∧ (i : Int) ∈ tempoDs L

instance (L i : Nat) : Decidable (encHasTempoDs L i) := by
  unfold encHasTempoDs
  infer_instance

/-- Whether decoder level `i` temporally upsamples: `i != 0` and
`i in tempo_us`. -/
def decHasTempoUs (i : Nat) : Prop :=
  i ≠ 0 ∧ i ∈ tempoUs

instance (i : Nat) : Decidable (decHasTempoUs i) := by
  unfold decHasTempoUs
  infer_instance

/-- Number of temporal downsamples the encoder performs over a run of
levels. -/
def encTempoCountOn (L : Nat) (levels : List Nat) : Nat :=
  (levels.filter (fun i => decide (encHasTempoDs L i))).length

/-- Total number of temporal downsamples of an encoder with `L` levels. -/
def encTempoCount (L : Nat) : Nat :=
  encTempoCountOn L (List.range L)

/-- Number of temporal upsamples the decoder performs over a run of levels. -/
def decTempoCountOn (levels : List Nat) : Nat :=
  (levels.filter (fun i => decide (decHasTempoUs i))).length

/-- Total number of temporal upsamples of a decoder with `L` levels. -/
def decTempoCount (L : Nat) : Nat :=
  decTempoCountOn (List.range L)

/-- The default `AutoencoderVidTok` configuration (a valid "kl"
configuration), used as the C1 witness. -/
def c1cfg : ModelCfg := ⟨3, 3, 128, [1, 2, 4, 4], 4, true, 2, 4, "kl", true⟩

/-- A constructable configuration whose `temporal_compression_ratio` (8) does
NOT equal the encoder's actual temporal factor (4): the C4 counterexample. -/
def c4cfg : ModelCfg := ⟨3, 3, 128, [1, 2, 4, 4], 4, true, 2, 8, "kl", true⟩

/-! ### Value-level batched encoder pipeline

Embedding of `VidTokEncoder3D.forward`, `AutoencoderVidTok.tiled_encode`,
`AutoencoderVidTok._encode` and `AutoencoderVidTok.encode` on batched
tensors.  Tensors carry their batch (or collapsed) leading axis explicitly,
so what every stage does to that axis is part of its definition.  External
torch primitives whose scalar numerics are irrational (`torch.sigmoid`,
`F.scaled_dot_product_attention`) and repository modules absent from `src/`
(`VidTokLayerNorm`, `VidTokDownsample2D`) enter as parameters applied with
the source's exact indexing structure. -/

/-- A 4D tensor (dim0, channel, height, width) as an index function; dim0 is
the batch axis or the collapsed `(batch·time)` axis of the `(b t) c h w`
rearrangement.  The batched 1D tensors of the `(b h w) c t` rearrangement
reuse `T3` as (dim0, channel, time). -/
abbrev T4 := Nat → Nat → Nat → Nat → ℚ

/-- External torch functions entering the pipeline as parameters.  `sig` is
`torch.sigmoid` (an irrational scalar map, used by `nonlinearity`); `drp` is
the elementwise action of `nn.Dropout` (the identity in evaluation mode);
`sdpa` is `F.scaled_dot_product_attention` on one (sequence, channel) slice —
torch applies it independently at every leading batch index, and the spec
fixes those batch indices for this model: the attention "sequence axis =
spatial positions, batch axis absorbs time". -/
structure ExtMaps where
  sig : ℚ → ℚ
  drp : ℚ → ℚ
  sdpa : (Nat → Nat → ℚ) → (Nat → Nat → ℚ) → (Nat → Nat → ℚ) → Nat → Nat → ℚ

/-- Function `nonlinearity` (lines 57-60): `x * torch.sigmoid(x)`, with
`torch.sigmoid` passed as the parameter `sig`. -/
def nonlinearity (sig : ℚ → ℚ) (q : ℚ) : ℚ := q * sig q

/-- Elementwise application of a scalar map to a 5D tensor. -/
def emap5 (f : ℚ → ℚ) (x : T5) : T5 := fun b c t h w => f (x b c t h w)

/-- Elementwise application of a scalar map to a 4D tensor. -/
def emap4 (f : ℚ → ℚ) (x : T4) : T4 := fun i c h w => f (x i c h w)

/-- Elementwise application of a scalar map to a (dim0, channel, time)
tensor. -/
def emap3 (f : ℚ → ℚ) (x : T3) : T3 := fun i c t => f (x i c t)

/-- Modelled from the spec: `VidTokLayerNorm` ("a learned layer-normalization
variant", `diffusers/models/normalization.py`, absent from `src/`) applies a
learned `nn.LayerNorm` over the channel axis, i.e. it maps the channel
vector at every (dim0, position) index through a normalization map — layer
normalization computes its statistics within a sample and never across the
leading batch axis.  The per-position channel map is the parameter `nrm`. -/
def normChan5 (nrm : (Nat → ℚ) → Nat → ℚ) (x : T5) : T5 :=
  fun b c t h w => nrm (fun c2 => x b c2 t h w) c

/-- Modelled from the spec: `VidTokLayerNorm` on a 4D input — see
`normChan5`. -/
def normChan4 (nrm : (Nat → ℚ) → Nat → ℚ) (x : T4) : T4 :=
  fun i c h w => nrm (fun c2 => x i c2 h w) c

/-- Modelled from the spec: `VidTokLayerNorm` on a (dim0, channel, time)
input — see `normChan5`. -/
def normChan3 (nrm : (Nat → ℚ) → Nat → ℚ) (x : T3) : T3 :=
  fun i c t => nrm (fun c2 => x i c2 t) c

/-- Value of `F.pad(x, (pl, pr), mode)` on a batched (dim0, channel, time)
input of time length `T`: the dim0 index passes through untouched, exactly
as `F.pad` never touches leading axes. -/
def bpadded1 (mode : PadMode) (pl : Int) (T : Nat) (x : T3) : T3 :=
  fun i cch q =>
    match padIdx mode pl T q with
    | none => 0
    | some j => x i cch j

/-- `nn.Conv1d` applied (without further padding) to a batched
(dim0, channel, time) input: the valid cross-correlation, with the dim0
index passing through. -/
def bconv1dApply (c : Conv1d) (x : T3) : T3 :=
  fun i oc t => c.bias oc +
    ∑ ic ∈ Finset.range c.in_channels, ∑ k ∈ Finset.range c.kernel_size,
      c.weight oc ic k * x i ic (t * c.stride + k * c.dilation)

/-- `VidTokCausalConv1d.forward` on a batched (dim0, channel, time) input of
time length `T`: left-pad time by `time_pad` in the effective pad mode, then
convolve. -/
def VidTokCausalConv1d.bforward (m : VidTokCausalConv1d) (T : Nat)
    (x : T3) : T3 :=
  bconv1dApply m.conv
    (bpadded1 (effPadMode m.pad_mode m.time_pad T) m.time_pad T x)

/-- Conv-class dispatch `VidTokCausalConv1d if is_causal else nn.Conv1d` of
the 1D resnet block: a causal conv, or a plain `nn.Conv1d` with symmetric
zero padding `p`. -/
inductive MkConv1 where
  | causal (m : VidTokCausalConv1d)
  | plain (c : Conv1d) (p : Nat)

/-- Application of a `MkConv1` to a batched (dim0, channel, time) input of
time length `T`. -/
def MkConv1.apply : MkConv1 → Nat → T3 → T3
  | .causal m, T, x => m.bforward T x
  | .plain c p, T, x => bconv1dApply c (bpadded1 .constant (p : Int) T x)

/-- Parameters of `nn.Conv2d` with a square kernel `k`, stride `stride` and
symmetric zero padding `p` (the 2D resnet block only constructs
`kernel_size=3, stride=1, padding=1` and `kernel_size=1, stride=1,
padding=0`). -/
structure Conv2dM where
  in_channels : Nat
  out_channels : Nat
  k : Nat
  stride : Nat
  p : Nat
  weight : Nat → Nat → Nat → Nat → ℚ
  bias : Nat → ℚ

/-- Value of the symmetric 2D zero padding of `nn.Conv2d` on a batched
(dim0, channel, height, width) input with extents `H, W`. -/
def bpadded2 (p : Int) (H W : Nat) (x : T4) : T4 :=
  fun i cch h w =>
    match padIdx .constant p H h, padIdx .constant p W w with
    | some h0, some w0 => x i cch h0 w0
    | _, _ => 0

/-- `nn.Conv2d` forward on a batched (dim0, channel, height, width) input:
zero-pad, then valid cross-correlation, with the dim0 index passing
through. -/
def conv2dForward (c : Conv2dM) (H W : Nat) (x : T4) : T4 :=
  fun i oc h w => c.bias oc +
    ∑ ic ∈ Finset.range c.in_channels, ∑ j ∈ Finset.range c.k,
      ∑ l ∈ Finset.range c.k,
        c.weight oc ic j l *
          bpadded2 (c.p : Int) H W x i ic (h * c.stride + j) (w * c.stride + l)

/-- Conv-class dispatch `VidTokCausalConv3d if is_causal else nn.Conv3d`
used throughout the encoder: a causal conv, or a plain `nn.Conv3d` with
symmetric zero padding `p` on every axis. -/
inductive MkConv3 where
  | causal (m : VidTokCausalConv3d)
  | plain (c : Conv3d) (p : Nat)

/-- Application of a `MkConv3` to a batched input with extents `T, H, W`. -/
def MkConv3.apply : MkConv3 → Nat → Nat → Nat → T5 → T5
  | .causal m, T, H, W, x => m.forward T H W x
  | .plain c p, T, H, W, x =>
      conv3dApply c (padded3 .constant (p : Int) (p : Int) (p : Int) T H W x)

/-- Output channel count of a `MkConv3`. -/
def MkConv3.outC : MkConv3 → Nat
  | .causal m => m.conv.out_channels
  | .plain c _ => c.out_channels

/-- `VidTokResnetBlock` with `btype="2d"` (`make_conv_cls = nn.Conv2d`,
lines 325-340) as constructed by the encoder levels: `conv1`/`conv2` are
3×3 stride-1 pad-1 convs; the optional shortcut is a 3×3 conv
(`use_conv_shortcut`) or a 1×1 conv; `norm1`/`norm2` are `VidTokLayerNorm`
channel maps (see `normChan4`).  The encoder passes `temb_channels=0` and
`temb=None`, so the time-embedding path of `forward` never runs. -/
structure ResnetBlock2DM where
  in_channels : Nat
  out_channels : Nat
  use_conv_shortcut : Bool
  norm1 : (Nat → ℚ) → Nat → ℚ
  norm2 : (Nat → ℚ) → Nat → ℚ
  conv1 : Conv2dM
  conv2 : Conv2dM
  conv_shortcut : Conv2dM
  nin_shortcut : Conv2dM

/-- `VidTokResnetBlock.forward` (lines 342-363) for a 2D block on a batched
(dim0, channel, height, width) input:
`h = conv1(nonlinearity(norm1(x)))`,
`h = conv2(dropout(nonlinearity(norm2(h))))`, shortcut on `x` when the
channel counts differ, `return x + h`.  The convs are stride-1
extent-preserving as constructed, so `H, W` also bound the intermediate
tensors. -/
def ResnetBlock2DM.forward (E : ExtMaps) (m : ResnetBlock2DM) (H W : Nat)
    (x : T4) : T4 :=
  let h1 := conv2dForward m.conv1 H W
    (emap4 (nonlinearity E.sig) (normChan4 m.norm1 x))
  let h2 := conv2dForward m.conv2 H W
    (emap4 E.drp (emap4 (nonlinearity E.sig) (normChan4 m.norm2 h1)))
  let xs :=
    if m.in_channels ≠ m.out_channels then
      if m.use_conv_shortcut then conv2dForward m.conv_shortcut H W x
      else conv2dForward m.nin_shortcut H W x
    else x
  fun i c h w => xs i c h w + h2 i c h w

/-- `VidTokResnetBlock` with `btype="1d"`
(`make_conv_cls = VidTokCausalConv1d if is_causal else nn.Conv1d`):
`conv1`/`conv2` and the optional `conv_shortcut` have kernel 3 (plain form:
padding 1), `nin_shortcut` kernel 1 (plain form: padding 0). -/
structure ResnetBlock1DM where
  in_channels : Nat
  out_channels : Nat
  use_conv_shortcut : Bool
  norm1 : (Nat → ℚ) → Nat → ℚ
  norm2 : (Nat → ℚ) → Nat → ℚ
  conv1 : MkConv1
  conv2 : MkConv1
  conv_shortcut : MkConv1
  nin_shortcut : MkConv1

/-- `VidTokResnetBlock.forward` for a 1D block on a batched
(dim0, channel, time) input of time length `T`. -/
def ResnetBlock1DM.forward (E : ExtMaps) (m : ResnetBlock1DM) (T : Nat)
    (x : T3) : T3 :=
  let h1 := m.conv1.apply T (emap3 (nonlinearity E.sig) (normChan3 m.norm1 x))
  let h2 := m.conv2.apply T
    (emap3 E.drp (emap3 (nonlinearity E.sig) (normChan3 m.norm2 h1)))
  let xs :=
    if m.in_channels ≠ m.out_channels then
      if m.use_conv_shortcut then m.conv_shortcut.apply T x
      else m.nin_shortcut.apply T x
    else x
  fun i c t => xs i c t + h2 i c t

/-- `VidTokResnetBlock` with `btype="3d"`
(`make_conv_cls = VidTokCausalConv3d if is_causal else nn.Conv3d`), used by
the encoder's middle block. -/
structure ResnetBlock3DM where
  in_channels : Nat
  out_channels : Nat
  use_conv_shortcut : Bool
  norm1 : (Nat → ℚ) → Nat → ℚ
  norm2 : (Nat → ℚ) → Nat → ℚ
  conv1 : MkConv3
  conv2 : MkConv3
  conv_shortcut : MkConv3
  nin_shortcut : MkConv3

/-- `VidTokResnetBlock.forward` for a 3D block on a batched input with
extents `T, H, W` (kernel-3 stride-1 convs preserve them). -/
def ResnetBlock3DM.forward (E : ExtMaps) (m : ResnetBlock3DM)
    (T H W : Nat) (x : T5) : T5 :=
  let h1 := m.conv1.apply T H W
    (emap5 (nonlinearity E.sig) (normChan5 m.norm1 x))
  let h2 := m.conv2.apply T H W
    (emap5 E.drp (emap5 (nonlinearity E.sig) (normChan5 m.norm2 h1)))
  let xs :=
    if m.in_channels ≠ m.out_channels then
      if m.use_conv_shortcut then m.conv_shortcut.apply T H W x
      else m.nin_shortcut.apply T H W x
    else x
  fun b c t h w => xs b c t h w + h2 b c t h w

/-- `VidTokAttnBlockWrapper` (lines 254-282): a `VidTokLayerNorm` channel
map plus 1×1×1 q/k/v/proj convs (causal or plain by construction). -/
structure AttnBlockWM where
  norm : (Nat → ℚ) → Nat → ℚ
  q : MkConv3
  k : MkConv3
  v : MkConv3
  proj_out : MkConv3

/-- The attention core of `VidTokAttnBlockWrapper.attention` (lines
278-282): rearrange `q, k, v` by `"b c t h w -> b t (h w) c"` (spatial
position `s = h·W + w`), apply `F.scaled_dot_product_attention` (`sdpa`) at
each `(b, t)` pair, rearrange the result back by
`"b t (h w) c -> b c t h w"`. -/
def attCore
    (sdpa : (Nat → Nat → ℚ) → (Nat → Nat → ℚ) → (Nat → Nat → ℚ) →
      Nat → Nat → ℚ) (W : Nat) (q k v : T5) : T5 :=
  fun b c t2 h w =>
    sdpa (fun s2 c2 => q b c2 t2 (s2 / W) (s2 % W))
      (fun s2 c2 => k b c2 t2 (s2 / W) (s2 % W))
      (fun s2 c2 => v b c2 t2 (s2 / W) (s2 % W)) (h * W + w) c

/-- `VidTokAttnBlockWrapper.forward` / `.attention` (lines 246-251 and
271-282): `h_ = norm(x)`; `q, k, v` by 1×1×1 convs; the attention core;
`proj_out`; residual `x + h_`. -/
def AttnBlockWM.forward (E : ExtMaps) (m : AttnBlockWM) (T H W : Nat)
    (x : T5) : T5 :=
  let hn := normChan5 m.norm x
  let h2 := attCore E.sdpa W (m.q.apply T H W hn) (m.k.apply T H W hn)
    (m.v.apply T H W hn)
  fun b c t2 h w => x b c t2 h w + m.proj_out.apply T H W h2 b c t2 h w

/-- `VidTokDownsample3D` as constructed (`is_causal` selects the branch of
its `forward`); `alpha = torch.sigmoid(self.mix_factor)` as in
`VidTokDownsample3D.forwardCausal` / `forwardPlain`. -/
inductive Downsample3DMix where
  | causal (alpha : ℚ) (m : VidTokCausalConv3d)
  | plain (alpha : ℚ) (c : Conv3d)

/-- `VidTokDownsample3D.forward` on a batched input with extents
`T, H, W`. -/
def Downsample3DMix.apply : Downsample3DMix → Nat → Nat → Nat → T5 → T5
  | .causal a m, T, H, W, x => VidTokDownsample3D.forwardCausal a m T H W x
  | .plain a c, T, H, W, x => VidTokDownsample3D.forwardPlain a c T H W x

/-- einops `rearrange(x, "b c t h w -> (b t) c h w")` with time extent `T`:
collapsed index `i = b·T + t`. -/
def rearrBT (T : Nat) (x : T5) : T4 :=
  fun i c h w => x (i / T) c (i % T) h w

/-- einops `rearrange(y, "(b t) c h w -> b c t h w", b=B, t=T)`. -/
def rearrBTinv (T : Nat) (y : T4) : T5 :=
  fun b c t h w => y (b * T + t) c h w

/-- einops `rearrange(x, "b c t h w -> (b h w) c t")` with spatial extents
`H, W`: collapsed index `i = b·H·W + h·W + w`. -/
def rearrBHW (H W : Nat) (x : T5) : T3 :=
  fun i c t => x (i / (H * W)) c t (i % (H * W) / W) (i % (H * W) % W)

/-- einops `rearrange(y, "(b h w) c t -> b c t h w", b=B, h=H, w=W)`. -/
def rearrBHWinv (H W : Nat) (y : T3) : T5 :=
  fun b c t h w => y (b * (H * W) + (h * W + w)) c t

/-- Function `spatial_temporal_resblk` (lines 39-55): collapse `(b t)` and
apply the 2D block per frame, restore; collapse `(b h w)` and apply the 1D
temporal block per pixel column, restore.  `T, H, W` are the extents the
source reads from `x.shape` for the rearranges. -/
def spatial_temporal_resblk (E : ExtMaps) (bs : ResnetBlock2DM)
    (bt : ResnetBlock1DM) (T H W : Nat) (x : T5) : T5 :=
  rearrBHWinv H W
    (bt.forward E T
      (rearrBHW H W (rearrBTinv T (bs.forward E H W (rearrBT T x)))))

/-- Modelled from the spec: `VidTokDownsample2D` ("spatially downsample by
2×", `diffusers/models/downsampling.py`, absent from `src/`) is a strided
convolutional module applied to the collapsed
`(batch·time, channel, height, width)` tensor; a 2D convolution acts on
every dim-0 sample independently, so the module is a parameter frame map
`f` lifted over dim 0, and it halves each (even) spatial extent. -/
def downsample2dLift (f : (Nat → Nat → Nat → ℚ) → Nat → Nat → Nat → ℚ)
    (x : T4) : T4 :=
  fun i => f (x i)

/-- One encoder resolution level as constructed (lines 429-466): the
`num_res_blocks` (2D, 1D) resnet-pair list, the `VidTokDownsample2D` frame
map `ds2d` (applied when the level is not the last) and the
`VidTokDownsample3D` module `dsT` (applied when additionally the level is
in `tempo_ds`). -/
structure EncLevelM where
  blocks : List (ResnetBlock2DM × ResnetBlock1DM)
  ds2d : (Nat → Nat → Nat → ℚ) → Nat → Nat → Nat → ℚ
  dsT : Downsample3DMix

/-- Time extent after `VidTokDownsample3D` on time extent `T`: both the
causal branch (left time pad 1, kernel 3, stride 2) and the plain branch
(right time pad 1, kernel 3, stride 2) produce `⌊(T + 1 - 3)/2⌋ + 1`. -/
def ds3T (T : Nat) : Nat := conv1dOutLen (T + 1) 3 1 2

/-- The encoder level loop of `VidTokEncoder3D.forward` (lines 539-552): at
level `i`, fold the spatial/temporal resnet pairs; then — unless
`i = num_resolutions - 1` — spatially downsample through the `(b t)`
collapse and, when `i ∈ tempo_ds`, temporally downsample.  The source
re-reads `B, _, T, H, W = htmp.shape` after each downsample, so the
recursion carries `(T, H, W)` alongside the tensor: the spec-modelled
spatial downsample halves `H, W` and `VidTokDownsample3D` maps `T` to
`ds3T T`.  Returns the final extents together with the tensor. -/
def encLevelsForward (E : ExtMaps) (L : Nat) :
    List EncLevelM → Nat → Nat → Nat → Nat → T5 → (Nat × Nat × Nat) × T5
  | [], _, T, H, W, x => ((T, H, W), x)
  | lv :: rest, i, T, H, W, x =>
    let xb := lv.blocks.foldl
      (fun a pr => spatial_temporal_resblk E pr.1 pr.2 T H W a) x
    if i = L - 1 then encLevelsForward E L rest (i + 1) T H W xb
    else
      let xs := rearrBTinv T (downsample2dLift lv.ds2d (rearrBT T xb))
      if (i : Int) ∈ tempoDs L then
        encLevelsForward E L rest (i + 1) (ds3T T) (H / 2) (W / 2)
          (lv.dsT.apply T (H / 2) (W / 2) xs)
      else encLevelsForward E L rest (i + 1) T (H / 2) (W / 2) xs

/-- Extent bookkeeping of `encLevelsForward` alone (no tensor): the
encoder's latent extents on input extents `(T, H, W)` (the mid and end
modules preserve all extents). -/
def encDims (L : Nat) :
    List EncLevelM → Nat → Nat → Nat → Nat → Nat × Nat × Nat
  | [], _, T, H, W => (T, H, W)
  | _ :: rest, i, T, H, W =>
    if i = L - 1 then encDims L rest (i + 1) T H W
    else if (i : Int) ∈ tempoDs L then
      encDims L rest (i + 1) (ds3T T) (H / 2) (W / 2)
    else encDims L rest (i + 1) T (H / 2) (W / 2)

/-- Validity of input extents for the batched encoder: every intermediate
`(T, H, W)` triple along the level loop is positive (on an empty
intermediate tensor torch errors, and the collapsed `(b t)` / `(b h w)`
axes are degenerate). -/
def encPosB (L : Nat) : List EncLevelM → Nat → Nat → Nat → Nat → Bool
  | [], _, _, _, _ => true
  | _ :: rest, i, T, H, W =>
    (T != 0) && (H != 0) && (W != 0) &&
      (if i = L - 1 then encPosB L rest (i + 1) T H W
       else if (i : Int) ∈ tempoDs L then
         encPosB L rest (i + 1) (ds3T T) (H / 2) (W / 2)
       else encPosB L rest (i + 1) T (H / 2) (W / 2))

/-- `VidTokEncoder3D` as constructed (lines 405-498): `conv_in`, the level
list, the middle resnet-attention-resnet block, and the final
norm/activation/projection. -/
structure Encoder3DM where
  conv_in : MkConv3
  levels : List EncLevelM
  mid_block_1 : ResnetBlock3DM
  mid_attn_1 : AttnBlockWM
  mid_block_2 : ResnetBlock3DM
  norm_out : (Nat → ℚ) → Nat → ℚ
  conv_out : MkConv3

/-- `VidTokEncoder3D.forward` (lines 501-566, inference branch):
`hs = [conv_in(x)]`; the level loop; `mid.block_1`, `mid.attn_1`,
`mid.block_2`; then `norm_out`, `nonlinearity`, `conv_out`.  `conv_in` and
the mid/end modules are kernel-3 (or 1) stride-1, so they preserve the
extents the level loop tracks. -/
def Encoder3DM.forward (E : ExtMaps) (m : Encoder3DM) (T H W : Nat)
    (x : T5) : T5 :=
  let r := encLevelsForward E m.levels.length m.levels 0 T H W
    (m.conv_in.apply T H W x)
  let h1 := m.mid_block_1.forward E r.1.1 r.1.2.1 r.1.2.2 r.2
  let h2 := m.mid_attn_1.forward E r.1.1 r.1.2.1 r.1.2.2 h1
  let h3 := m.mid_block_2.forward E r.1.1 r.1.2.1 r.1.2.2 h2
  m.conv_out.apply r.1.1 r.1.2.1 r.1.2.2
    (emap5 (nonlinearity E.sig) (normChan5 m.norm_out h3))

/-- Python `range(0, stop, step)` as a list (empty when `step = 0`, where
Python raises instead). -/
def stepRange (stop step : Nat) : List Nat :=
  (List.range ((stop + step - 1) / step)).map (· * step)

/-- The spatial crop `x[:, :, :, i : i + th, j : j + tw]` as an index
translation. -/
def crop5 (x : T5) (i j : Nat) : T5 :=
  fun b c t h w => x b c t (i + h) (j + w)

/-- `torch.cat(tiles, dim=4)` of tiles paired with their widths: a width
index `w` falls into the first tile while `w < w₀`, else recurse with
`w - w₀`. -/
def catTilesW : List (Nat × T5) → T5
  | [] => zero5
  | (w0, v) :: rest => fun b c t h w =>
      if w < w0 then v b c t h w else catTilesW rest b c t h (w - w0)

/-- `torch.cat(rows, dim=3)` of rows paired with their heights. -/
def catTilesH : List (Nat × T5) → T5
  | [] => zero5
  | (h0, v) :: rest => fun b c t h w =>
      if h < h0 then v b c t h w else catTilesH rest b c t (h - h0) w

/-- The raw tile grid of `tiled_encode` (lines 1035-1042): entry `(r, s)`
is `self.encoder` applied to the overlapping crop at row offset `is[r]` and
column offset `js[s]`; the crop has spatial extents
`min(tile_sample_min, remaining)` and its encoded tile carries the
encoder's latent extent bookkeeping `encDims` (only the spatial extents are
read by the blending).  `B` is the batch extent recorded in each `Tile`; no
stitching operation reads it. -/
def tiledGrid (E : ExtMaps) (m : Encoder3DM) (ts : TilingState)
    (B T H W : Nat) (is js : List Nat) (x : T5) : Nat → Nat → Tile :=
  fun r s =>
    ⟨B, m.conv_out.outC,
      (encDims m.levels.length m.levels 0 T
        (min ts.tile_sample_min_height (H - is.getD r 0))
        (min ts.tile_sample_min_width (W - js.getD s 0))).1,
      (encDims m.levels.length m.levels 0 T
        (min ts.tile_sample_min_height (H - is.getD r 0))
        (min ts.tile_sample_min_width (W - js.getD s 0))).2.1,
      (encDims m.levels.length m.levels 0 T
        (min ts.tile_sample_min_height (H - is.getD r 0))
        (min ts.tile_sample_min_width (W - js.getD s 0))).2.2,
      m.forward E T
        (min ts.tile_sample_min_height (H - is.getD r 0))
        (min ts.tile_sample_min_width (W - js.getD s 0))
        (crop5 x (is.getD r 0) (js.getD s 0))⟩

/-- The crop-and-concatenate pass of `tiled_encode` after stitching (lines
1044-1057): each blended tile of the grid `g`, cropped to
`[:row_limit_height, :row_limit_width]` (extents
`min(tile extent, row limit)`), concatenated along width within a row and
the rows concatenated along height. -/
def stitchOut (g : Nat → Nat → Tile) (nr nc rlh rlw : Nat) : T5 :=
  catTilesH ((List.range nr).map (fun r =>
    (min (g r 0).H rlh,
      catTilesW ((List.range nc).map (fun s =>
        (min (g r s).W rlw, (g r s).val))))))

/-- `AutoencoderVidTok.tiled_encode` (lines 1009-1058).  Overlap steps and
blend extents come from the tiling state (`int(...)` of the nonnegative
float products is their floor); the raw grid of encoded overlapping crops
(`tiledGrid`) goes through the stitching pass `stitchLoop` — the same
in-place blend loop as `tiled_decode` — and the blended tiles are cropped
and concatenated by `stitchOut`. -/
def tiledEncodeM (E : ExtMaps) (m : Encoder3DM) (ts : TilingState)
    (B T H W : Nat) (x : T5) : T5 :=
  let oh := ((ts.tile_sample_min_height : ℚ) *
    (1 - ts.tile_overlap_factor_height)).floor.toNat
  let ow := ((ts.tile_sample_min_width : ℚ) *
    (1 - ts.tile_overlap_factor_width)).floor.toNat
  let beh := ((ts.tile_latent_min_height : ℚ) *
    ts.tile_overlap_factor_height).floor.toNat
  let bew := ((ts.tile_latent_min_width : ℚ) *
    ts.tile_overlap_factor_width).floor.toNat
  let is := stepRange H oh
  let js := stepRange W ow
  stitchOut
    (stitchLoop beh bew is.length js.length
      (tiledGrid E m ts B T H W is js x))
    is.length js.length
    (ts.tile_latent_min_height - beh) (ts.tile_latent_min_width - bew)

/-- `AutoencoderVidTok._encode` (lines 934-940): dispatch to `tiled_encode`
when tiling is enabled and a spatial extent exceeds its tile threshold,
else the whole-tensor encoder. -/
def encodeU (E : ExtMaps) (m : Encoder3DM) (ts : TilingState)
    (B T H W : Nat) (x : T5) : T5 :=
  if ts.use_tiling ∧
      (ts.tile_sample_min_width < W ∨ ts.tile_sample_min_height < H) then
    tiledEncodeM E m ts B T H W x
  else m.forward E T H W x

/-- The batch-slice view `x[n : n+1]` of `x.split(1)`: its sample 0 is
sample `n` of `x` (the left shift of the batch axis by `n`). -/
def bshift (x : T5) (n : Nat) : T5 := fun b => x (n + b)

/-- `torch.cat` along the batch axis of a list of size-1 batches: sample
`b` of the result is sample 0 of the `b`-th slice. -/
def catBatch1 (l : List T5) : T5 :=
  fun b c t h w => (l.getD b zero5) 0 c t h w

/-- Modelled from the spec: the regularizer tail of `encode` (lines
961-966, implemented in `vae.py`, absent from `src/`).  With `"kl"` the
return value `AutoencoderKLOutput(DiagonalGaussianDistribution(z))` is
determined by the latent `z`, modelled as `z` itself; otherwise the
discrete regularizer returns `self.regularization(z)[0]`, a pointwise
quantization of `z` (the parameter `quant`). -/
def regularizeTail (regularizer : String) (quant : ℚ → ℚ) (z : T5) : T5 :=
  if regularizer = "kl" then z else emap5 quant z

/-- `AutoencoderVidTok.encode` (lines 942-966): if
`self.use_slicing and x.shape[0] > 1`, `_encode` each size-1 slice and
concatenate, else `_encode` the whole batch; then the regularizer tail. -/
def encodeM (E : ExtMaps) (m : Encoder3DM) (ts : TilingState)
    (use_slicing : Bool) (regularizer : String) (quant : ℚ → ℚ)
    (B T H W : Nat) (x : T5) : T5 :=
  regularizeTail regularizer quant
    (if use_slicing ∧ 1 < B then
      catBatch1 ((List.range B).map (fun i =>
        encodeU E m ts 1 T H W (bshift x i)))
    else encodeU E m ts B T H W x)

/-- Left shift of the dim-0 axis of a 4D tensor. -/
def shiftD4 (x : T4) (n : Nat) : T4 := fun i => x (n + i)

/-- Left shift of the dim-0 axis of a (dim0, channel, time) tensor. -/
def shiftD3 (x : T3) (n : Nat) : T3 := fun i => x (n + i)

/-- Batch shift of a tile's value (extents unchanged). -/
def tshift (t : Tile) (n : Nat) : Tile := { t with val := bshift t.val n }

/-- Replacement of a tile's batch-extent field (never read by the
stitching operations). -/
def setTileB (k : Nat) (t : Tile) : Tile := { t with B := k }

/-- Pointwise application of a tile map to a tile grid. -/
def gmap (f : Tile → Tile) (g : Nat → Nat → Tile) : Nat → Nat → Tile :=
  fun i j => f (g i j)

/-- A tensor-to-tensor map processes each batch sample independently: it
commutes with every left shift of the batch axis. -/
def BatchPointwise (F : T5 → T5) : Prop :=
  ∀ x n, F (bshift x n) = bshift (F x) n

/-- Concrete external maps for the C6 witness. -/
def extMapsW : ExtMaps := ⟨id, id, fun _ _ v => v⟩

/-- Concrete 1-channel cubic k-1 plain convolution for the C6 witness. -/
def convW : Conv3d :=
  ⟨1, 1, 1, 1, 1, 1, 1, 1, 1, 1, 1, fun _ _ _ _ _ => 1, fun _ => 0⟩

/-- Concrete 3D resnet block for the C6 witness. -/
def resW : ResnetBlock3DM :=
  ⟨1, 1, false, fun f => f, fun f => f, .plain convW 0, .plain convW 0,
    .plain convW 0, .plain convW 0⟩

/-- Concrete attention block for the C6 witness. -/
def attnW : AttnBlockWM :=
  ⟨fun f => f, .plain convW 0, .plain convW 0, .plain convW 0,
    .plain convW 0⟩

/-- Concrete blockless encoder level for the C6 witness. -/
def lvW : EncLevelM := ⟨[], fun g => g, .plain 0 convW⟩

/-- Concrete single-level encoder for the C6 witness. -/
def encW : Encoder3DM :=
  ⟨.plain convW 0, [lvW], resW, attnW, resW, fun f => f, .plain convW 0⟩

/-- Concrete tiling state for the C6 witness (tiling off). -/
def tsW6 : TilingState := ⟨false, 1, 1, 1, 1, 0, 0⟩

end VidTok

/-! ## Theorems -/

open VidTok

/-- If `padIdx` resolves a padded position `q` to an original index `j`
(under a non-reflect mode, with `q - pl` bounded by `t` and by the axis
length), then `j < t`: non-reflect padding never looks forward. -/
theorem padIdx_some_lt (mode : PadMode) (hm : mode ≠ .reflect) (pl : Int)
    (n q t : Nat) (ht : 0 < t) (hq1 : (q : Int) - pl < (t : Int))
    (hq2 : (q : Int) - pl < (n : Int)) :
    ∀ j, padIdx mode pl n q = some j → j < t := by
  intro j hj
  unfold padIdx at hj
  by_cases h0 : (q : Int) - pl < 0
  · simp only [h0, if_true] at hj
    cases mode with
    | constant => exact absurd hj (by simp)
    | replicate => simp at hj; omega
    | reflect => exact absurd rfl hm
  · by_cases h1 : (q : Int) - pl < (n : Int)
    · simp only [h0, if_false, h1, if_true] at hj
      injection hj with hj2
      omega
    · omega

/-- Agreement of 1D padded tensors below time `t` (non-reflect modes). -/
theorem padded1_agree (mode : PadMode) (hm : mode ≠ .reflect) (pl : Int)
    (T : Nat) (x y : Nat → Nat → ℚ) (t : Nat) (ht : 0 < t)
    (hxy : ∀ cch u, u < t → x cch u = y cch u) (cch q : Nat)
    (hq1 : (q : Int) - pl < (t : Int)) (hq2 : (q : Int) - pl < (T : Int)) :
    padded1 mode pl T x cch q = padded1 mode pl T y cch q := by
  unfold padded1
  rcases h : padIdx mode pl T q with _ | j
  · rfl
  · exact hxy cch j (padIdx_some_lt mode hm pl T q t ht hq1 hq2 j h)

/-- Agreement of 3D padded tensors below time `t` (non-reflect modes): the
spatial axes may resolve anywhere, the time axis never looks forward. -/
theorem padded3_agree (mode : PadMode) (hm : mode ≠ .reflect) (pt ph pw : Int)
    (T H W : Nat) (x y : T5) (t : Nat) (ht : 0 < t)
    (hxy : ∀ b cch u hh ww, u < t → x b cch u hh ww = y b cch u hh ww)
    (b cch q hh ww : Nat)
    (hq1 : (q : Int) - pt < (t : Int)) (hq2 : (q : Int) - pt < (T : Int)) :
    padded3 mode pt ph pw T H W x b cch q hh ww =
      padded3 mode pt ph pw T H W y b cch q hh ww := by
  unfold padded3
  rcases h : padIdx mode pt T q with _ | t0
  · rfl
  · cases padIdx mode ph H hh <;> cases padIdx mode pw W ww <;>
      first
      | rfl
      | exact hxy b cch t0 _ _ (padIdx_some_lt mode hm pt T q t ht hq1 hq2 t0 h)

/-- The effective pad mode is never `reflect` when the configured mode is not
`reflect` (it is either the configured mode or the `constant` fallback). -/
theorem effPadMode_ne_reflect (pm : PadMode) (tp : Int) (T : Nat)
    (h : pm ≠ .reflect) : effPadMode pm tp T ≠ .reflect := by
  unfold effPadMode
  split
  · exact h
  · simp

/-- C5 (amended): strict causality holds for every stride-1 causal convolution
(1D and 3D) under the constant and replicate pad modes (the modes these blocks
are constructed with): if two inputs agree at all time steps strictly before
`t`, the outputs agree at every valid output time step strictly before `t`.
The stride-2 causal convolution used for temporal downsampling falsifies the
claim as stated (see the counterexample): its output time axis is
downsampled, so output step `u` reads input steps up to `s·(u+1)−1`. -/
theorem C5_stride_one_causality :
    (∀ (m : VidTokCausalConv1d) (T : Nat) (x y : Nat → Nat → ℚ) (t : Nat),
        m.conv.stride = 1 → 1 ≤ m.conv.kernel_size → m.pad_mode ≠ .reflect →
        (∀ cch u, u < t → x cch u = y cch u) →
        ∀ oc u, u < t → u < m.outLen T →
          m.forward T x oc u = m.forward T y oc u)
  ∧ (∀ (m : VidTokCausalConv3d) (T H W : Nat) (x y : T5) (t : Nat),
        m.conv.st = 1 → 1 ≤ m.conv.kt → m.pad_mode ≠ .reflect →
        (∀ b cch u hh ww, u < t → x b cch u hh ww = y b cch u hh ww) →
        ∀ b oc u hh ww, u < t → u < (m.outDims T H W).1 →
          m.forward T H W x b oc u hh ww = m.forward T H W y b oc u hh ww) := by
  constructor
  · intro m T x y t hs hk hm hxy oc u hut huL
    have ht : 0 < t := by omega
    set D := m.conv.dilation * (m.conv.kernel_size - 1) with hD
    have htp : m.time_pad = (D : Int) := by
      unfold VidTokCausalConv1d.time_pad
      rw [hs]
      have hcast : ((m.conv.kernel_size : Int) - 1) =
          ((m.conv.kernel_size - 1 : Nat) : Int) := by omega
      rw [hcast, hD]
      push_cast
      ring
    have hTu : u < T := by
      unfold VidTokCausalConv1d.outLen conv1dOutLen at huL
      rw [htp] at huL
      have h1 : ((T : Int) + (D : Int)).toNat = T + D := by omega
      rw [h1, ← hD, hs] at huL
      by_cases hc : D + 1 ≤ T + D
      · rw [if_pos hc, Nat.div_one] at huL
        omega
      · rw [if_neg hc] at huL
        omega
    unfold VidTokCausalConv1d.forward conv1dApply
    congr 1
    apply Finset.sum_congr rfl
    intro ic _
    apply Finset.sum_congr rfl
    intro i hi
    congr 1
    rw [hs, mul_one]
    set a := i * m.conv.dilation with hA
    have ha : a ≤ D := by
      rw [hA, hD]
      have hik : i ≤ m.conv.kernel_size - 1 := by
        simp only [Finset.mem_range] at hi
        omega
      calc i * m.conv.dilation ≤ (m.conv.kernel_size - 1) * m.conv.dilation :=
            Nat.mul_le_mul_right _ hik
        _ = m.conv.dilation * (m.conv.kernel_size - 1) := Nat.mul_comm _ _
    apply padded1_agree _ (effPadMode_ne_reflect _ _ _ hm) _ _ _ _ t ht hxy
    · rw [htp]
      omega
    · rw [htp]
      omega
  · intro m T H W x y t hs hk hm hxy b oc u hh ww hut huL
    have ht : 0 < t := by omega
    set D := m.conv.dt * (m.conv.kt - 1) with hD
    have htp : m.time_pad = (D : Int) := by
      unfold VidTokCausalConv3d.time_pad
      rw [hs]
      have hcast : ((m.conv.kt : Int) - 1) = ((m.conv.kt - 1 : Nat) : Int) := by
        omega
      rw [hcast, hD]
      push_cast
      ring
    have hTu : u < T := by
      unfold VidTokCausalConv3d.outDims at huL
      simp only [] at huL
      unfold conv1dOutLen at huL
      rw [htp] at huL
      have h1 : ((T : Int) + (D : Int)).toNat = T + D := by omega
      rw [h1, ← hD, hs] at huL
      by_cases hc : D + 1 ≤ T + D
      · rw [if_pos hc, Nat.div_one] at huL
        omega
      · rw [if_neg hc] at huL
        omega
    unfold VidTokCausalConv3d.forward conv3dApply
    congr 1
    apply Finset.sum_congr rfl
    intro ic _
    apply Finset.sum_congr rfl
    intro i hi
    apply Finset.sum_congr rfl
    intro j _
    apply Finset.sum_congr rfl
    intro l _
    congr 1
    rw [hs, mul_one]
    set a := i * m.conv.dt with hA
    have ha : a ≤ D := by
      rw [hA, hD]
      have hik : i ≤ m.conv.kt - 1 := by
        simp only [Finset.mem_range] at hi
        omega
      calc i * m.conv.dt ≤ (m.conv.kt - 1) * m.conv.dt :=
            Nat.mul_le_mul_right _ hik
        _ = m.conv.dt * (m.conv.kt - 1) := Nat.mul_comm _ _
    apply padded3_agree _ (effPadMode_ne_reflect _ _ _ hm) _ _ _ _ _ _ x y t ht hxy
    · rw [htp]
      omega
    · rw [htp]
      omega

/-- C5 witness: for a concrete stride-1 causal convolution and two concrete
inputs agreeing strictly before time 2, the outputs agree at step 1. -/
theorem C5_stride_one_causality_witness :
    strideOneConv.forward 3 bump2 0 1 = strideOneConv.forward 3 zero2 0 1 :=
  C5_stride_one_causality.1 strideOneConv 3 bump2 zero2 2 rfl (by decide)
    (by decide)
    (by
      intro cch u hu
      unfold bump2 zero2
      rw [if_neg (by omega)])
    0 1 (by decide) (by decide)

/-- C5 counterexample: the stride-2 causal convolution (the temporal
downsample pattern) violates the claim as stated — the inputs `zero2` and
`bump3` agree at all time steps strictly before `t = 3`, step `1` is a valid
output step with `1 < 3`, yet the outputs differ at step `1`. -/
theorem C5_stride_two_not_causal :
    (∀ cch u, u < 3 → zero2 cch u = bump3 cch u)
    ∧ 1 < 3 ∧ 1 < strideTwoConv.outLen 4
    ∧ strideTwoConv.forward 4 zero2 0 1 ≠ strideTwoConv.forward 4 bump3 0 1 := by
  refine ⟨?_, by omega, by decide, ?_⟩
  · intro cch u hu
    unfold bump3 zero2
    rw [if_neg (by omega)]
  · unfold VidTokCausalConv1d.forward conv1dApply strideTwoConv
    simp [padded1, padIdx, effPadMode, VidTokCausalConv1d.time_pad,
      Finset.sum_range_succ, bump3, zero2]

/-- C2 (amended): each mixed block computes `σ(mix)·A + (1−σ(mix))·B` where A
is the averaging/interpolation path and B the convolution path, so driving the
mix parameter to −∞ (`σ(mix) = 0`) reduces the output exactly to the
CONVOLUTION path B, and driving it to +∞ (`σ(mix) = 1`) reduces it exactly to
the averaging/interpolation path A — the opposite orientation of the claim. -/
theorem C2_blend_endpoints :
    (∀ (m : VidTokCausalConv3d) (T H W : Nat) (x : T5),
        VidTokDownsample3D.forwardCausal 1 m T H W x =
          VidTokDownsample3D.pathACausal T H W x
      ∧ VidTokDownsample3D.forwardCausal 0 m T H W x =
          VidTokDownsample3D.pathBCausal m T H W x)
  ∧ (∀ (c : Conv3d) (T H W : Nat) (x : T5),
        VidTokDownsample3D.forwardPlain 1 c T H W x =
          VidTokDownsample3D.pathAPlain T H W x
      ∧ VidTokDownsample3D.forwardPlain 0 c T H W x =
          VidTokDownsample3D.pathBPlain c T H W x)
  ∧ (∀ (m : VidTokCausalConv3d) (T H W : Nat) (x : T5),
        VidTokUpsample3D.forwardCausal 1 m T H W x =
          VidTokUpsample3D.interpNearest2x x
      ∧ VidTokUpsample3D.forwardCausal 0 m T H W x =
          VidTokUpsample3D.pathBCausal m T H W x)
  ∧ (∀ (c : Conv3d) (T H W : Nat) (x : T5),
        VidTokUpsample3D.forwardPlain 1 c T H W x =
          VidTokUpsample3D.interpNearest2x x
      ∧ VidTokUpsample3D.forwardPlain 0 c T H W x =
          VidTokUpsample3D.pathBPlain c T H W x) := by
  refine ⟨fun m T H W x => ⟨?_, ?_⟩, fun c T H W x => ⟨?_, ?_⟩,
    fun m T H W x => ⟨?_, ?_⟩, fun c T H W x => ⟨?_, ?_⟩⟩ <;>
  · funext b cc t h w
    simp [VidTokDownsample3D.forwardCausal, VidTokDownsample3D.forwardPlain,
      VidTokUpsample3D.forwardCausal, VidTokUpsample3D.forwardPlain]

/-- C2 counterexample: for the concrete causal downsample block `mixCexCausal`
with `σ(mix) = 0` (the −∞ limit) on the all-zero input, the output value at
index `(0,0,0,0,0)` is `1` (the convolution path) while the averaging path A
has value `0` there — so at −∞ the block does NOT reduce to path A. -/
theorem C2_blend_endpoints_counterexample :
    VidTokDownsample3D.forwardCausal 0 mixCexCausal 2 1 1 zero5 0 0 0 0 0 = 1
    ∧ VidTokDownsample3D.pathACausal 2 1 1 zero5 0 0 0 0 0 = 0 := by
  constructor
  · simp [VidTokDownsample3D.forwardCausal, VidTokDownsample3D.pathACausal,
      VidTokDownsample3D.pathBCausal, VidTokCausalConv3d.forward,
      VidTokCausalConv3d.time_pad, VidTokCausalConv3d.height_pad,
      VidTokCausalConv3d.width_pad, mixCexCausal, mixCexConv,
      conv3dApply, padded3, padIdx, effPadMode, avgPool3d311, zero5]
  · simp [VidTokDownsample3D.pathACausal, avgPool3d311, padded3, padIdx, zero5]

/-- C3 (code bug): evaluated at the failing input — a 3D causal convolution
with kernel size `(3, 3, 5)`, stride 1, dilation 1 — the code's `F.pad` tuple
is `(1, 1, 1, 1, 2, 0)`: the width axis receives a total pad of 2, computed
from the HEIGHT kernel size (source line 121), whereas the claimed per-axis
formula `d·(k−1)+(1−s)` for the width axis gives 4. The time entries `(2, 0)`
(leading side only) and the height entries match the claim. -/
theorem C3_width_pad_uses_height_kernel :
    widthBugConv.time_causal_padding = (1, 1, 1, 1, 2, 0)
    ∧ (widthBugConv.conv.dw : Int) * ((widthBugConv.conv.kw : Int) - 1)
        + (1 - (widthBugConv.conv.sw : Int)) = 4
    ∧ widthBugConv.width_pad = 2 := by
  refine ⟨?_, by decide, by decide⟩
  decide

/-- C7 (amended): the causal convolutions fall back to constant padding if and
only if the required time pad is at least (`≥`, not `>`) the input's time
length or the configured mode is already constant; whenever the pad is
strictly smaller than the time length the configured mode is used. -/
theorem C7_pad_fallback :
    ∀ (pm : PadMode) (tp : Int) (T : Nat),
      (effPadMode pm tp T = .constant ↔ ((T : Int) ≤ tp ∨ pm = .constant))
      ∧ (tp < (T : Int) → effPadMode pm tp T = pm) := by
  intro pm tp T
  unfold effPadMode
  by_cases h : tp < (T : Int)
  · rw [if_pos h]
    exact ⟨⟨fun hc => Or.inr hc, fun hc => by
      rcases hc with hc | hc
      · omega
      · exact hc⟩, fun _ => rfl⟩
  · rw [if_neg h]
    exact ⟨⟨fun _ => Or.inl (by omega), fun _ => rfl⟩, fun hc => absurd hc h⟩

/-- C7 witness: with required pad 2 and time length 3 the configured
replicate mode is used. -/
theorem C7_pad_fallback_witness : effPadMode .replicate 2 3 = .replicate :=
  (C7_pad_fallback .replicate 2 3).2 (by decide)

/-- C7 counterexample to the claim as stated: with required time pad 2 and
input time length 2 the pad does NOT exceed the time length, yet the code
falls back to constant instead of the configured replicate mode. -/
theorem C7_pad_fallback_counterexample :
    effPadMode .replicate 2 2 = .constant
    ∧ ¬ ((2 : Nat) : Int) < 2
    ∧ PadMode.replicate ≠ PadMode.constant := by
  refine ⟨by decide, by decide, by decide⟩

/-- C8 (amended): construction fails the asserts exactly when the regularizer
kind is invalid, or when `"fsq"` is requested with
`z_channels ≠ ⌊log₈ codebook_size⌋` (the integer truncation the code
computes) or with `double_z = true`; every `"kl"` configuration and every
`"fsq"` configuration meeting those conditions passes. -/
theorem C8_init_asserts :
    (∀ (r : String) (z : Nat) (dz : Bool) (cb : Nat),
        r ≠ "kl" → r ≠ "fsq" → initChecks r z dz cb = false)
    ∧ (∀ (z : Nat) (dz : Bool) (cb : Nat),
        initChecks "fsq" z dz cb = true ↔ (z = Nat.log 8 cb ∧ dz = false))
    ∧ (∀ (z : Nat) (dz : Bool) (cb : Nat), initChecks "kl" z dz cb = true) := by
  refine ⟨?_, ?_, ?_⟩
  · intro r z dz cb h1 h2
    simp [initChecks, h1, h2]
  · intro z dz cb
    simp [initChecks]
  · intro z dz cb
    simp [initChecks]

/-- C8 witness: an invalid regularizer kind fails the asserts; a `"kl"`
configuration passes them. -/
theorem C8_init_asserts_witness :
    initChecks "vq" 4 true 262144 = false
    ∧ initChecks "kl" 4 true 262144 = true :=
  ⟨C8_init_asserts.1 "vq" 4 true 262144 (by decide) (by decide),
   C8_init_asserts.2.2 4 true 262144⟩

/-- C8 counterexample to the claim as stated: `"fsq"` with `z_channels = 1`,
`codebook_size = 9`, `double_z = false` passes the constructor asserts
(`int(math.log(9, 8)) = 1`), although `z_channels` does not equal the real
base-8 logarithm of the codebook size (`8^1 ≠ 9`). -/
theorem C8_floor_log_counterexample :
    initChecks "fsq" 1 false 9 = true ∧ (8 : Nat) ^ 1 ≠ 9 := by
  constructor
  · have h : Nat.log 8 9 = 1 :=
      Nat.log_eq_of_pow_le_of_lt_pow (by norm_num) (by norm_num)
    simp [initChecks, h]
  · decide

/-- C9: calling `enable_tiling` with explicit `0` arguments switches tiling on
but silently keeps every previously stored tile size and overlap factor
(Python `x or y` treats `0`, `0.0` and `None` alike as falsy), behaving
exactly like the all-`None` call. -/
theorem C9_enable_tiling_zero_keeps_old (L : Nat) (s : TilingState) :
    (enable_tiling L s (some 0) (some 0) (some 0) (some 0)).use_tiling = true
    ∧ (enable_tiling L s (some 0) (some 0) (some 0)
        (some 0)).tile_sample_min_height = s.tile_sample_min_height
    ∧ (enable_tiling L s (some 0) (some 0) (some 0)
        (some 0)).tile_sample_min_width = s.tile_sample_min_width
    ∧ (enable_tiling L s (some 0) (some 0) (some 0)
        (some 0)).tile_overlap_factor_height = s.tile_overlap_factor_height
    ∧ (enable_tiling L s (some 0) (some 0) (some 0)
        (some 0)).tile_overlap_factor_width = s.tile_overlap_factor_width
    ∧ enable_tiling L s (some 0) (some 0) (some 0) (some 0)
        = enable_tiling L s none none none none := by
  refine ⟨rfl, ?_, ?_, ?_, ?_, ?_⟩ <;>
    simp [enable_tiling, orKeepNat, orKeepRat]

/-- One stitching step preserves the loop invariant, advancing the processed
region by the grid cell `(k, l)` — the key point being that the vertical
blend partner it reads at `(k-1, l)` is already the blended tile. -/
theorem stitchStep_inv (raw : Nat → Nat → Tile) (beh bew ncols k l : Nat)
    (g : Nat → Nat → Tile) (hl : l < ncols)
    (h : stitchInv raw beh bew ncols k l g) :
    stitchInv raw beh bew ncols k (l + 1) (stitchStep beh bew g k l) := by
  have h0 : g k l = raw k l := by
    rw [h k l, if_neg (by omega)]
  have h1 : 0 < k → g (k - 1) l = blendedRef raw beh bew (k - 1) l := by
    intro hk0
    rw [h (k - 1) l, if_pos (by omega)]
  have h2 : 0 < l → g k (l - 1) = blendedRef raw beh bew k (l - 1) := by
    intro hl0
    rw [h k (l - 1), if_pos (by omega)]
  intro i j
  unfold stitchStep
  by_cases hij : i = k ∧ j = l
  · obtain ⟨hi, hj⟩ := hij
    subst hi
    subst hj
    rw [if_pos ⟨rfl, rfl⟩, if_pos (show j < ncols ∧ (i < i ∨ (i = i ∧ j < j + 1))
      from ⟨hl, Or.inr ⟨rfl, by omega⟩⟩)]
    rw [blendedRef]
    by_cases hi0 : 0 < i <;> by_cases hj0 : 0 < j <;>
      simp only [hi0, hj0, if_true, if_false, h0]
    · rw [h1 hi0, h2 hj0]
    · rw [h1 hi0]
    · rw [h2 hj0]
  · rw [if_neg hij, h i j]
    exact if_congr (by omega) rfl rfl

/-- The column loop preserves the invariant across a run of columns. -/
theorem stitchCols_inv (raw : Nat → Nat → Tile) (beh bew ncols k : Nat) :
    ∀ (n l : Nat) (g : Nat → Nat → Tile), l + n ≤ ncols →
      stitchInv raw beh bew ncols k l g →
      stitchInv raw beh bew ncols k (l + n)
        (stitchCols beh bew k (List.range' l n) g) := by
  intro n
  induction n with
  | zero =>
      intro l g _ h
      simpa [stitchCols] using h
  | succ n ih =>
      intro l g hle h
      rw [List.range'_succ]
      have hstep := stitchStep_inv raw beh bew ncols k l g (by omega) h
      have hrec := ih (l + 1) (stitchStep beh bew g k l) (by omega) hstep
      have harith : l + (n + 1) = (l + 1) + n := by omega
      rw [harith]
      simpa [stitchCols] using hrec

/-- Completing a row converts the invariant to the start of the next row. -/
theorem stitchRow_wrap (raw : Nat → Nat → Tile) (beh bew ncols k : Nat)
    (g : Nat → Nat → Tile) (h : stitchInv raw beh bew ncols k ncols g) :
    stitchInv raw beh bew ncols (k + 1) 0 g := by
  intro i j
  rw [h i j]
  exact if_congr (by omega) rfl rfl

/-- The row loop preserves the invariant across a run of rows. -/
theorem stitchRows_inv (raw : Nat → Nat → Tile) (beh bew ncols : Nat) :
    ∀ (n k : Nat) (g : Nat → Nat → Tile),
      stitchInv raw beh bew ncols k 0 g →
      stitchInv raw beh bew ncols (k + n) 0
        (stitchRows beh bew ncols (List.range' k n) g) := by
  intro n
  induction n with
  | zero =>
      intro k g h
      simpa [stitchRows] using h
  | succ n ih =>
      intro k g h
      rw [List.range'_succ]
      have hcols := stitchCols_inv raw beh bew ncols k ncols 0 g (by omega) h
      rw [Nat.zero_add] at hcols
      have hwrap := stitchRow_wrap raw beh bew ncols k _
        (by rw [← List.range_eq_range'] at hcols; exact hcols)
      have hrec := ih (k + 1) _ hwrap
      have harith : k + (n + 1) = (k + 1) + n := by omega
      rw [harith]
      simpa [stitchRows] using hrec

/-- C10: the stitching pass of `tiled_encode`/`tiled_decode` computes, at
every grid position, exactly the reference recurrence `blendedRef`, in which
the upper neighbor fed to `blend_v` (and the left neighbor fed to `blend_h`)
is the ALREADY top- and left-blended tile of that position — not the raw
encoder/decoder output — because `blend_v`/`blend_h` mutate the current tile
in place inside the stored grid. -/
theorem C10_stitch_uses_blended_neighbors
    (raw : Nat → Nat → Tile) (beh bew nrows ncols i j : Nat)
    (hi : i < nrows) (hj : j < ncols) :
    stitchLoop beh bew nrows ncols raw i j = blendedRef raw beh bew i j := by
  have h0 : stitchInv raw beh bew ncols 0 0 raw := by
    intro i j
    rw [if_neg (by omega)]
  have hrows := stitchRows_inv raw beh bew ncols nrows 0 raw h0
  rw [Nat.zero_add] at hrows
  unfold stitchLoop
  rw [List.range_eq_range']
  rw [hrows i j, if_pos (by omega)]

/-- C10 witness: the theorem applied to a concrete 2×2 grid at position
`(1, 1)`. -/
theorem C10_stitch_uses_blended_neighbors_witness :
    stitchLoop 1 1 2 2 rawGridW 1 1 = blendedRef rawGridW 1 1 1 1 :=
  C10_stitch_uses_blended_neighbors rawGridW 1 1 2 2 1 1 (by decide) (by decide)

open VidTok

theorem convAxis_k3s1_causal (n : Nat) (hn : 1 ≤ n) : convAxis n 2 0 3 1 1 = some n := by
  unfold convAxis
  rw [if_pos (by push_cast; omega)]
  congr 1
  omega

theorem convAxis_k3s1_sym (n : Nat) (hn : 1 ≤ n) : convAxis n 1 1 3 1 1 = some n := by
  unfold convAxis
  rw [if_pos (by push_cast; omega)]
  congr 1
  omega

theorem convAxis_k1 (n : Nat) (hn : 1 ≤ n) : convAxis n 0 0 1 1 1 = some n := by
  unfold convAxis
  rw [if_pos (by push_cast; omega)]
  congr 1
  omega

theorem convAxis_k3s2_causal (n : Nat) (hn : 2 ≤ n) : convAxis n 1 0 3 1 2 = some (n / 2) := by
  unfold convAxis
  rw [if_pos (by push_cast; omega)]
  congr 1
  omega

theorem convAxis_k3s2_plain (n : Nat) (hn : 2 ≤ n) : convAxis (n + 1) 0 0 3 1 2 = some (n / 2) := by
  unfold convAxis
  rw [if_pos (by push_cast; omega)]
  congr 1
  omega

theorem causalConv3dShape_k3s1 (cIn cOut B T H W : Nat) (hT : 1 ≤ T) (hH : 1 ≤ H) (hW : 1 ≤ W) :
    causalConv3dShape cIn cOut 3 3 3 1 1 1 1 1 1 ⟨B, cIn, T, H, W⟩ = some ⟨B, cOut, T, H, W⟩ := by
  unfold causalConv3dShape
  rw [if_pos rfl]
  norm_num [Int.fdiv]
  rw [convAxis_k3s1_causal T hT, convAxis_k3s1_sym H hH, convAxis_k3s1_sym W hW]

theorem conv3dShape_k3s1 (cIn cOut B T H W : Nat) (hT : 1 ≤ T) (hH : 1 ≤ H) (hW : 1 ≤ W) :
    conv3dShape cIn cOut 3 3 3 1 1 1 1 1 1 ⟨B, cIn, T, H, W⟩ = some ⟨B, cOut, T, H, W⟩ := by
  unfold conv3dShape
  rw [if_pos rfl]
  simp only [Nat.cast_one, convAxis_k3s1_sym T hT, convAxis_k3s1_sym H hH,
    convAxis_k3s1_sym W hW]

theorem makeConv3Shape_eq (ic : Bool) (cIn cOut B T H W : Nat) (hT : 1 ≤ T)
    (hH : 1 ≤ H) (hW : 1 ≤ W) :
    makeConv3Shape ic cIn cOut ⟨B, cIn, T, H, W⟩ = some ⟨B, cOut, T, H, W⟩ := by
  unfold makeConv3Shape
  cases ic
  · rw [if_neg (by simp), conv3dShape_k3s1 cIn cOut B T H W hT hH hW]
  · rw [if_pos rfl, causalConv3dShape_k3s1 cIn cOut B T H W hT hH hW]

theorem causalConv3dShape_k1 (cIn cOut B T H W : Nat) (hT : 1 ≤ T) (hH : 1 ≤ H) (hW : 1 ≤ W) :
    causalConv3dShape cIn cOut 1 1 1 1 1 1 1 1 1 ⟨B, cIn, T, H, W⟩ = some ⟨B, cOut, T, H, W⟩ := by
  unfold causalConv3dShape
  rw [if_pos rfl]
  norm_num [Int.fdiv]
  rw [convAxis_k1 T hT, convAxis_k1 H hH, convAxis_k1 W hW]

theorem conv3dShape_k1 (cIn cOut B T H W : Nat) (hT : 1 ≤ T) (hH : 1 ≤ H) (hW : 1 ≤ W) :
    conv3dShape cIn cOut 1 1 1 1 1 1 0 0 0 ⟨B, cIn, T, H, W⟩ = some ⟨B, cOut, T, H, W⟩ := by
  unfold conv3dShape
  rw [if_pos rfl]
  simp only [Nat.cast_zero, convAxis_k1 T hT, convAxis_k1 H hH, convAxis_k1 W hW]

theorem makeConv1Shape_eq (ic : Bool) (cIn cOut B T H W : Nat) (hT : 1 ≤ T)
    (hH : 1 ≤ H) (hW : 1 ≤ W) :
    makeConv1Shape ic cIn cOut ⟨B, cIn, T, H, W⟩ = some ⟨B, cOut, T, H, W⟩ := by
  unfold makeConv1Shape
  cases ic
  · rw [if_neg (by simp), conv3dShape_k1 cIn cOut B T H W hT hH hW]
  · rw [if_pos rfl, causalConv3dShape_k1 cIn cOut B T H W hT hH hW]

theorem conv2dShape_k3 (cIn cOut B H W : Nat) (hH : 1 ≤ H) (hW : 1 ≤ W) :
    conv2dShape cIn cOut 3 1 1 ⟨B, cIn, H, W⟩ = some ⟨B, cOut, H, W⟩ := by
  unfold conv2dShape
  rw [if_pos rfl]
  simp only [Nat.cast_one, convAxis_k3s1_sym H hH, convAxis_k3s1_sym W hW]

theorem conv2dShape_k1 (cIn cOut B H W : Nat) (hH : 1 ≤ H) (hW : 1 ≤ W) :
    conv2dShape cIn cOut 1 1 0 ⟨B, cIn, H, W⟩ = some ⟨B, cOut, H, W⟩ := by
  unfold conv2dShape
  rw [if_pos rfl]
  simp only [Nat.cast_zero, convAxis_k1 H hH, convAxis_k1 W hW]

theorem resnet2dShape_eq (cIn cOut B H W : Nat) (hH : 1 ≤ H) (hW : 1 ≤ W) :
    resnet2dShape cIn cOut ⟨B, cIn, H, W⟩ = some ⟨B, cOut, H, W⟩ := by
  unfold resnet2dShape
  by_cases hc : cIn = cOut
  · subst hc
    simp only [conv2dShape_k3 cIn cIn B H W hH hW, if_neg (by simp : ¬cIn ≠ cIn)]
    simp
  · simp only [conv2dShape_k3 cIn cOut B H W hH hW,
      conv2dShape_k3 cOut cOut B H W hH hW, if_pos hc,
      conv2dShape_k1 cIn cOut B H W hH hW]
    simp

theorem causalConv1dShape_k3 (cIn cOut B T : Nat) (hT : 1 ≤ T) :
    causalConv1dShape cIn cOut 3 1 1 ⟨B, cIn, T⟩ = some ⟨B, cOut, T⟩ := by
  unfold causalConv1dShape
  rw [if_pos rfl]
  norm_num
  rw [convAxis_k3s1_causal T hT]

theorem causalConv1dShape_k1 (cIn cOut B T : Nat) (hT : 1 ≤ T) :
    causalConv1dShape cIn cOut 1 1 1 ⟨B, cIn, T⟩ = some ⟨B, cOut, T⟩ := by
  unfold causalConv1dShape
  rw [if_pos rfl]
  norm_num
  rw [convAxis_k1 T hT]

theorem conv1dShape_k3 (cIn cOut B T : Nat) (hT : 1 ≤ T) :
    conv1dShape cIn cOut 3 1 1 ⟨B, cIn, T⟩ = some ⟨B, cOut, T⟩ := by
  unfold conv1dShape
  rw [if_pos rfl]
  simp only [Nat.cast_one, convAxis_k3s1_sym T hT]

theorem conv1dShape_k1 (cIn cOut B T : Nat) (hT : 1 ≤ T) :
    conv1dShape cIn cOut 1 1 0 ⟨B, cIn, T⟩ = some ⟨B, cOut, T⟩ := by
  unfold conv1dShape
  rw [if_pos rfl]
  simp only [Nat.cast_zero, convAxis_k1 T hT]

theorem resnet1dShape_eq (ic : Bool) (cIn cOut B T : Nat) (hT : 1 ≤ T) :
    resnet1dShape ic cIn cOut ⟨B, cIn, T⟩ = some ⟨B, cOut, T⟩ := by
  unfold resnet1dShape
  by_cases hc : cIn = cOut
  · subst hc
    cases ic <;>
      simp only [Bool.false_eq_true, if_true, if_false,
        causalConv1dShape_k3 cIn cIn B T hT, conv1dShape_k3 cIn cIn B T hT,
        if_neg (by simp : ¬cIn ≠ cIn)]
  · cases ic <;>
      simp only [Bool.false_eq_true, if_true, if_false,
        causalConv1dShape_k3 cIn cOut B T hT, conv1dShape_k3 cIn cOut B T hT,
        causalConv1dShape_k3 cOut cOut B T hT, conv1dShape_k3 cOut cOut B T hT,
        if_pos hc, causalConv1dShape_k1 cIn cOut B T hT,
        conv1dShape_k1 cIn cOut B T hT]

theorem resnet3dShape_eq (ic : Bool) (cIn cOut B T H W : Nat) (hT : 1 ≤ T)
    (hH : 1 ≤ H) (hW : 1 ≤ W) :
    resnet3dShape ic cIn cOut ⟨B, cIn, T, H, W⟩ = some ⟨B, cOut, T, H, W⟩ := by
  unfold resnet3dShape
  by_cases hc : cIn = cOut
  · subst hc
    simp only [makeConv3Shape_eq ic cIn cIn B T H W hT hH hW,
      if_neg (by simp : ¬cIn ≠ cIn)]
    simp
  · simp only [makeConv3Shape_eq ic cIn cOut B T H W hT hH hW,
      makeConv3Shape_eq ic cOut cOut B T H W hT hH hW, if_pos hc,
      makeConv1Shape_eq ic cIn cOut B T H W hT hH hW]
    simp

theorem attn3dShape_eq (ic : Bool) (cC B T H W : Nat) (hT : 1 ≤ T)
    (hH : 1 ≤ H) (hW : 1 ≤ W) :
    attn3dShape ic cC ⟨B, cC, T, H, W⟩ = some ⟨B, cC, T, H, W⟩ := by
  unfold attn3dShape
  simp only [makeConv1Shape_eq ic cC cC B T H W hT hH hW]
  simp

theorem midShape_eq (ic : Bool) (cC B T H W : Nat) (hT : 1 ≤ T)
    (hH : 1 ≤ H) (hW : 1 ≤ W) :
    midShape ic cC ⟨B, cC, T, H, W⟩ = some ⟨B, cC, T, H, W⟩ := by
  unfold midShape
  simp only [resnet3dShape_eq ic cC cC B T H W hT hH hW,
    attn3dShape_eq ic cC B T H W hT hH hW]

theorem stResblkShape_eq (ic : Bool) (cIn cOut B T H W : Nat) (hT : 1 ≤ T)
    (hH : 1 ≤ H) (hW : 1 ≤ W) :
    stResblkShape ic cIn cOut ⟨B, cIn, T, H, W⟩ = some ⟨B, cOut, T, H, W⟩ := by
  unfold stResblkShape
  simp only [resnet2dShape_eq cIn cOut (B * T) H W hH hW, if_pos rfl,
    resnet1dShape_eq ic cOut cOut (B * H * W) T hT]
  simp

theorem blocksShape_succ_eq (ic : Bool) (bOut B T H W : Nat)
    (hT : 1 ≤ T) (hH : 1 ≤ H) (hW : 1 ≤ W) :
    ∀ (m bIn : Nat),
      blocksShape ic bIn bOut (m + 1) ⟨B, bIn, T, H, W⟩ =
        some ⟨B, bOut, T, H, W⟩ := by
  intro m
  induction m with
  | zero =>
      intro bIn
      simp only [blocksShape, stResblkShape_eq ic bIn bOut B T H W hT hH hW]
  | succ k ih =>
      intro bIn
      show blocksShape ic bIn bOut (k + 1 + 1) _ = _
      simp only [blocksShape, stResblkShape_eq ic bIn bOut B T H W hT hH hW]
      exact ih bOut

theorem downsample2dShape_eq (cC B H W : Nat) (hHe : H % 2 = 0) (hWe : W % 2 = 0)
    (hH : 0 < H) (hW : 0 < W) :
    downsample2dShape cC ⟨B, cC, H, W⟩ = some ⟨B, cC, H / 2, W / 2⟩ := by
  unfold downsample2dShape
  simp only []
  rw [if_pos ⟨trivial, hHe, hWe, hH, hW⟩]

theorem upsample2dShape_eq (cC B H W : Nat) :
    upsample2dShape cC ⟨B, cC, H, W⟩ = some ⟨B, cC, H * 2, W * 2⟩ := by
  unfold upsample2dShape
  simp only []
  rw [if_pos trivial]

theorem avgPool3d311Shape_eq (cC B T H W : Nat) (hT : 2 ≤ T) (hH : 1 ≤ H)
    (hW : 1 ≤ W) :
    avgPool3d311Shape ⟨B, cC, T + 1, H, W⟩ = some ⟨B, cC, (T + 1 - 3) / 2 + 1, H, W⟩ := by
  unfold avgPool3d311Shape
  simp only []
  rw [if_pos ⟨by omega, by omega, by omega⟩]

theorem downsample3dShape_eq (ic : Bool) (cC B T H W : Nat) (hT : 2 ≤ T)
    (hTe : T % 2 = 0) (hH : 1 ≤ H) (hW : 1 ≤ W) :
    downsample3dShape ic cC cC ⟨B, cC, T, H, W⟩ = some ⟨B, cC, T / 2, H, W⟩ := by
  have harith : (T + 1 - 3) / 2 + 1 = T / 2 := by omega
  have havg : avgPool3d311Shape ⟨B, cC, T + 1, H, W⟩ =
      some ⟨B, cC, T / 2, H, W⟩ := by
    rw [avgPool3d311Shape_eq cC B T H W hT hH hW, harith]
  cases ic
  · have hconv : conv3dShape cC cC 3 3 3 2 1 1 0 1 1 ⟨B, cC, T + 1, H, W⟩ =
        some ⟨B, cC, T / 2, H, W⟩ := by
      unfold conv3dShape
      rw [if_pos rfl]
      simp only [Nat.cast_zero, Nat.cast_one, convAxis_k3s2_plain T hT,
        convAxis_k3s1_sym H hH, convAxis_k3s1_sym W hW]
    unfold downsample3dShape
    simp only [Bool.false_eq_true, if_false, havg, hconv]
    simp
  · have hconv : causalConv3dShape cC cC 3 3 3 2 1 1 1 1 1 ⟨B, cC, T, H, W⟩ =
        some ⟨B, cC, T / 2, H, W⟩ := by
      unfold causalConv3dShape
      rw [if_pos rfl]
      norm_num [Int.fdiv]
      rw [convAxis_k3s2_causal T hT, convAxis_k3s1_sym H hH, convAxis_k3s1_sym W hW]
    unfold downsample3dShape
    simp only [if_true, havg, hconv]
    try simp

theorem upsample3dShape_eq (ic : Bool) (cC B T H W : Nat) (hB : 1 ≤ B)
    (hT : 1 ≤ T) (hH : 1 ≤ H) (hW : 1 ≤ W) :
    upsample3dShape ic cC cC ⟨B, cC, T, H, W⟩ = some ⟨B, cC, 2 * T, H, W⟩ := by
  unfold upsample3dShape
  simp only []
  rw [if_neg (by omega)]
  simp only [makeConv3Shape_eq ic cC cC B (2 * T) H W (by omega) hH hW]
  simp

theorem blocksShape_eq (ic : Bool) (bIn bOut n B T H W : Nat) (hn : 1 ≤ n)
    (hT : 1 ≤ T) (hH : 1 ≤ H) (hW : 1 ≤ W) :
    blocksShape ic bIn bOut n ⟨B, bIn, T, H, W⟩ = some ⟨B, bOut, T, H, W⟩ := by
  obtain ⟨m, rfl⟩ : ∃ m, n = m + 1 := ⟨n - 1, by omega⟩
  exact blocksShape_succ_eq ic bOut B T H W hT hH hW m bIn

theorem encBlockIn_succ (cfg : EncCfg) (j : Nat) :
    encBlockIn cfg (j + 1) = encBlockOut cfg j := by
  unfold encBlockIn encBlockOut
  rw [List.getD_cons_succ]

theorem encLevelFinalCh_eq (cfg : EncCfg) (hnr : 1 ≤ cfg.num_res_blocks)
    (j : Nat) : encLevelFinalCh cfg j = encBlockOut cfg j := by
  unfold encLevelFinalCh
  rw [if_neg (by omega)]

theorem encLevelShape_last (cfg : EncCfg) (hnr : 1 ≤ cfg.num_res_blocks)
    (j : Nat) (hj : j = cfg.ch_mult.length - 1) (B T H W : Nat) (hT : 1 ≤ T)
    (hH : 1 ≤ H) (hW : 1 ≤ W) :
    encLevelShape cfg j ⟨B, encBlockIn cfg j, T, H, W⟩ =
      some ⟨B, encBlockOut cfg j, T, H, W⟩ := by
  unfold encLevelShape
  simp only [blocksShape_eq cfg.is_causal (encBlockIn cfg j) (encBlockOut cfg j)
    cfg.num_res_blocks B T H W hnr hT hH hW]
  rw [if_neg (by omega)]

theorem encLevelShape_ds (cfg : EncCfg) (hnr : 1 ≤ cfg.num_res_blocks)
    (j : Nat) (hj : j ≠ cfg.ch_mult.length - 1)
    (hmem : (j : Int) ∈ tempoDs cfg.ch_mult.length)
    (B t2 h2 w2 : Nat) (ht : 1 ≤ t2) (hh : 1 ≤ h2) (hw : 1 ≤ w2) :
    encLevelShape cfg j ⟨B, encBlockIn cfg j, 2 * t2, 2 * h2, 2 * w2⟩ =
      some ⟨B, encBlockOut cfg j, t2, h2, w2⟩ := by
  unfold encLevelShape
  simp only [blocksShape_eq cfg.is_causal (encBlockIn cfg j) (encBlockOut cfg j)
    cfg.num_res_blocks B (2 * t2) (2 * h2) (2 * w2) hnr (by omega) (by omega)
    (by omega)]
  rw [if_pos hj, encLevelFinalCh_eq cfg hnr j]
  simp only [downsample2dShape_eq (encBlockOut cfg j) (B * (2 * t2)) (2 * h2)
    (2 * w2) (by omega) (by omega) (by omega) (by omega)]
  simp only [if_pos rfl, if_pos hmem]
  have e1 : 2 * h2 / 2 = h2 := by omega
  have e2 : 2 * w2 / 2 = w2 := by omega
  rw [e1, e2, downsample3dShape_eq cfg.is_causal (encBlockOut cfg j) B (2 * t2)
    h2 w2 (by omega) (by omega) hh hw]
  have e3 : 2 * t2 / 2 = t2 := by omega
  rw [e3, if_pos trivial]

theorem encLevelShape_noDs (cfg : EncCfg) (hnr : 1 ≤ cfg.num_res_blocks)
    (j : Nat) (hj : j ≠ cfg.ch_mult.length - 1)
    (hmem : ¬ (j : Int) ∈ tempoDs cfg.ch_mult.length)
    (B T h2 w2 : Nat) (hT : 1 ≤ T) (hh : 1 ≤ h2) (hw : 1 ≤ w2) :
    encLevelShape cfg j ⟨B, encBlockIn cfg j, T, 2 * h2, 2 * w2⟩ =
      some ⟨B, encBlockOut cfg j, T, h2, w2⟩ := by
  unfold encLevelShape
  simp only [blocksShape_eq cfg.is_causal (encBlockIn cfg j) (encBlockOut cfg j)
    cfg.num_res_blocks B T (2 * h2) (2 * w2) hnr hT (by omega) (by omega)]
  rw [if_pos hj, encLevelFinalCh_eq cfg hnr j]
  simp only [downsample2dShape_eq (encBlockOut cfg j) (B * T) (2 * h2)
    (2 * w2) (by omega) (by omega) (by omega) (by omega)]
  simp only [if_pos rfl, if_neg hmem]
  have e1 : 2 * h2 / 2 = h2 := by omega
  have e2 : 2 * w2 / 2 = w2 := by omega
  rw [e1, e2, if_pos trivial]

theorem encTempoCountOn_cons (L i : Nat) (ls : List Nat) :
    encTempoCountOn L (i :: ls) =
      (if encHasTempoDs L i then 1 else 0) + encTempoCountOn L ls := by
  unfold encTempoCountOn
  rw [List.filter_cons]
  by_cases h : encHasTempoDs L i
  · simp [h]
    omega
  · simp [h]

theorem one_le_two_pow_mul (c x : Nat) (hx : 1 ≤ x) : 1 ≤ 2 ^ c * x := by
  have h2 : 0 < 2 ^ c := Nat.pos_pow_of_pos c (by omega)
  exact Nat.one_le_iff_ne_zero.mpr (Nat.mul_ne_zero (by omega) (by omega))

theorem encLevelsShape_run (cfg : EncCfg) (hnr : 1 ≤ cfg.num_res_blocks) :
    ∀ (n j : Nat), j + n = cfg.ch_mult.length → 1 ≤ n →
    ∀ (B m a b : Nat), 1 ≤ m → 1 ≤ a → 1 ≤ b →
      encLevelsShape cfg (List.range' j n)
        ⟨B, encBlockIn cfg j,
         2 ^ encTempoCountOn cfg.ch_mult.length (List.range' j n) * m,
         2 ^ (n - 1) * a, 2 ^ (n - 1) * b⟩
        = some ⟨B, encBlockOut cfg (cfg.ch_mult.length - 1), m, a, b⟩ := by
  intro n
  induction n with
  | zero =>
      intro j hj h1
      exact absurd h1 (by omega)
  | succ k ih =>
      intro j hj _ B m a b hm ha hb
      rw [List.range'_succ, encTempoCountOn_cons]
      by_cases hk : k = 0
      · subst hk
        have hjL : j = cfg.ch_mult.length - 1 := by omega
        subst hjL
        have hnil : List.range' (cfg.ch_mult.length - 1 + 1) 0 = [] := rfl
        rw [hnil]
        have hds : ¬ encHasTempoDs cfg.ch_mult.length (cfg.ch_mult.length - 1) := by
          unfold encHasTempoDs
          push_neg
          intro hc
          exact absurd rfl hc
        rw [if_neg hds]
        have hcnt : encTempoCountOn cfg.ch_mult.length ([] : List Nat) = 0 := rfl
        simp only [hcnt, Nat.zero_add, Nat.add_zero, pow_zero, one_mul,
          Nat.add_sub_cancel, Nat.sub_self]
        unfold encLevelsShape
        simp only [encLevelShape_last cfg hnr (cfg.ch_mult.length - 1) rfl
          B m a b hm ha hb]
        rfl
      · have hjne : j ≠ cfg.ch_mult.length - 1 := by omega
        have hH2 : 2 ^ (k + 1 - 1) * a = 2 * (2 ^ (k - 1) * a) := by
          have h1 : k + 1 - 1 = (k - 1) + 1 := by omega
          rw [h1, pow_succ]
          ring
        have hW2 : 2 ^ (k + 1 - 1) * b = 2 * (2 ^ (k - 1) * b) := by
          have h1 : k + 1 - 1 = (k - 1) + 1 := by omega
          rw [h1, pow_succ]
          ring
        by_cases hmem : (j : Int) ∈ tempoDs cfg.ch_mult.length
        · rw [if_pos ⟨hjne, hmem⟩]
          have hT2 : 2 ^ (1 + encTempoCountOn cfg.ch_mult.length
              (List.range' (j + 1) k)) * m =
              2 * (2 ^ encTempoCountOn cfg.ch_mult.length
                (List.range' (j + 1) k) * m) := by
            rw [pow_add, pow_one]
            ring
          rw [hT2, hH2, hW2]
          unfold encLevelsShape
          simp only [encLevelShape_ds cfg hnr j hjne hmem B _ _ _
            (one_le_two_pow_mul _ m hm) (one_le_two_pow_mul _ a ha)
            (one_le_two_pow_mul _ b hb)]
          rw [← encBlockIn_succ cfg j]
          exact ih (j + 1) (by omega) (by omega) B m a b hm ha hb
        · rw [if_neg (by
            unfold encHasTempoDs
            push_neg
            intro
            exact hmem)]
          rw [Nat.zero_add, hH2, hW2]
          unfold encLevelsShape
          simp only [encLevelShape_noDs cfg hnr j hjne hmem B _ _ _
            (one_le_two_pow_mul _ m hm) (one_le_two_pow_mul _ a ha)
            (one_le_two_pow_mul _ b hb)]
          rw [← encBlockIn_succ cfg j]
          exact ih (j + 1) (by omega) (by omega) B m a b hm ha hb

theorem encoderShape_eq (cfg : EncCfg) (hL : 1 ≤ cfg.ch_mult.length)
    (hnr : 1 ≤ cfg.num_res_blocks) (B m a b : Nat) (hm : 1 ≤ m) (ha : 1 ≤ a)
    (hb : 1 ≤ b) :
    encoderShape cfg
      ⟨B, cfg.in_channels, 2 ^ encTempoCount cfg.ch_mult.length * m,
       2 ^ (cfg.ch_mult.length - 1) * a, 2 ^ (cfg.ch_mult.length - 1) * b⟩
      = some ⟨B, if cfg.double_z then 2 * cfg.z_channels else cfg.z_channels,
          m, a, b⟩ := by
  unfold encoderShape
  rw [if_neg (by
    simp only [List.isEmpty_iff]
    intro hc
    rw [hc] at hL
    simp at hL)]
  simp only [makeConv3Shape_eq cfg.is_causal cfg.in_channels cfg.ch B _ _ _
    (one_le_two_pow_mul _ m hm) (one_le_two_pow_mul _ a ha)
    (one_le_two_pow_mul _ b hb)]
  unfold encTempoCount
  rw [List.range_eq_range']
  have h0 : cfg.ch = encBlockIn cfg 0 := by
    unfold encBlockIn
    rw [List.getD_cons_zero, Nat.mul_one]
  rw [h0]
  simp only [encLevelsShape_run cfg hnr cfg.ch_mult.length 0 (by omega) hL
    B m a b hm ha hb]
  rw [encLevelFinalCh_eq cfg hnr (cfg.ch_mult.length - 1)]
  simp only [midShape_eq cfg.is_causal (encBlockOut cfg (cfg.ch_mult.length - 1))
    B m a b hm ha hb]
  rw [if_pos trivial]
  exact makeConv3Shape_eq cfg.is_causal _ _ B m a b hm ha hb

theorem decLevelShape_zero (cfg : DecCfg) (B T H W : Nat) (hT : 1 ≤ T)
    (hH : 1 ≤ H) (hW : 1 ≤ W) :
    decLevelShape cfg 0 ⟨B, decBlockIn cfg 0, T, H, W⟩ =
      some ⟨B, decBlockOut cfg 0, T, H, W⟩ := by
  unfold decLevelShape
  simp only [blocksShape_eq cfg.is_causal (decBlockIn cfg 0) (decBlockOut cfg 0)
    (cfg.num_res_blocks + 1) B T H W (by omega) hT hH hW]
  rw [if_neg (by omega)]

theorem decLevelShape_us (cfg : DecCfg) (i : Nat) (hi : i ≠ 0)
    (hmem : i ∈ tempoUs) (B T H W : Nat) (hB : 1 ≤ B) (hT : 1 ≤ T)
    (hH : 1 ≤ H) (hW : 1 ≤ W) :
    decLevelShape cfg i ⟨B, decBlockIn cfg i, T, H, W⟩ =
      some ⟨B, decBlockOut cfg i, 2 * T, H * 2, W * 2⟩ := by
  unfold decLevelShape
  simp only [blocksShape_eq cfg.is_causal (decBlockIn cfg i) (decBlockOut cfg i)
    (cfg.num_res_blocks + 1) B T H W (by omega) hT hH hW]
  rw [if_pos hi]
  simp only [upsample2dShape_eq (decBlockOut cfg i) (B * T) H W]
  simp only [if_pos rfl, if_pos hmem]
  exact upsample3dShape_eq cfg.is_causal (decBlockOut cfg i) B T (H * 2) (W * 2)
    hB hT (by omega) (by omega)

theorem decLevelShape_noUs (cfg : DecCfg) (i : Nat) (hi : i ≠ 0)
    (hmem : ¬ i ∈ tempoUs) (B T H W : Nat) (hT : 1 ≤ T)
    (hH : 1 ≤ H) (hW : 1 ≤ W) :
    decLevelShape cfg i ⟨B, decBlockIn cfg i, T, H, W⟩ =
      some ⟨B, decBlockOut cfg i, T, H * 2, W * 2⟩ := by
  unfold decLevelShape
  simp only [blocksShape_eq cfg.is_causal (decBlockIn cfg i) (decBlockOut cfg i)
    (cfg.num_res_blocks + 1) B T H W (by omega) hT hH hW]
  rw [if_pos hi]
  simp only [upsample2dShape_eq (decBlockOut cfg i) (B * T) H W]
  simp only [if_pos rfl, if_neg hmem]
  rw [if_pos trivial]

theorem decTempoCountOn_snoc (k : Nat) :
    decTempoCountOn (List.range (k + 1)) =
      decTempoCountOn (List.range k) + (if decHasTempoUs k then 1 else 0) := by
  unfold decTempoCountOn
  rw [List.range_succ, List.filter_append, List.length_append]
  by_cases h : decHasTempoUs k <;> simp [h]

theorem decLevelsShape_run (cfg : DecCfg) :
    ∀ (k : Nat), k ≤ cfg.ch_mult.length →
    ∀ (B m a b : Nat), 1 ≤ B → 1 ≤ m → 1 ≤ a → 1 ≤ b →
      decLevelsShape cfg (List.range k).reverse
        ⟨B, cfg.ch * cfg.ch_mult.getD (min k (cfg.ch_mult.length - 1)) 0,
         m, a, b⟩
        = some ⟨B, cfg.ch * cfg.ch_mult.getD 0 0,
            2 ^ decTempoCountOn (List.range k) * m,
            2 ^ (k - 1) * a, 2 ^ (k - 1) * b⟩ := by
  intro k
  induction k with
  | zero =>
      intro _ B m a b hB hm ha hb
      simp only [List.range_zero, List.reverse_nil, decLevelsShape,
        decTempoCountOn, List.filter_nil, List.length_nil, pow_zero, one_mul,
        Nat.zero_sub, Nat.zero_min]
  | succ k ih =>
      intro hk B m a b hB hm ha hb
      have hrev : (List.range (k + 1)).reverse = k :: (List.range k).reverse := by
        rw [List.range_succ, List.reverse_append]
        rfl
      rw [hrev, decTempoCountOn_snoc]
      by_cases hk0 : k = 0
      · subst hk0
        have he : decBlockIn cfg 0 =
            cfg.ch * cfg.ch_mult.getD (min 1 (cfg.ch_mult.length - 1)) 0 := rfl
        unfold decLevelsShape
        rw [← he, decLevelShape_zero cfg B m a b hm ha hb]
        have hus : ¬ decHasTempoUs 0 := by
          unfold decHasTempoUs
          simp
        rw [if_neg hus]
        simp only [decTempoCountOn, List.range_zero, List.filter_nil,
          List.length_nil, Nat.add_zero, pow_zero, one_mul, Nat.sub_self]
        rfl
      · have he : decBlockIn cfg k =
            cfg.ch * cfg.ch_mult.getD (min (k + 1) (cfg.ch_mult.length - 1)) 0 := rfl
        have hmin : min k (cfg.ch_mult.length - 1) = k := by omega
        unfold decLevelsShape
        by_cases hmem : k ∈ tempoUs
        · rw [if_pos ⟨hk0, hmem⟩]
          rw [← he, decLevelShape_us cfg k hk0 hmem B m a b hB hm ha hb]
          simp only []
          have hrec := ih (by omega) B (2 * m) (a * 2) (b * 2) hB (by omega)
            (by omega) (by omega)
          rw [hmin] at hrec
          have he2 : cfg.ch * cfg.ch_mult.getD k 0 = decBlockOut cfg k := rfl
          rw [he2] at hrec
          rw [hrec]
          have e1 : 2 ^ decTempoCountOn (List.range k) * (2 * m) =
              2 ^ (decTempoCountOn (List.range k) + 1) * m := by
            rw [pow_succ]
            ring
          have e2 : 2 ^ (k - 1) * (a * 2) = 2 ^ (k + 1 - 1) * a := by
            have hx : k + 1 - 1 = (k - 1) + 1 := by omega
            rw [hx, pow_succ]
            ring
          have e3 : 2 ^ (k - 1) * (b * 2) = 2 ^ (k + 1 - 1) * b := by
            have hx : k + 1 - 1 = (k - 1) + 1 := by omega
            rw [hx, pow_succ]
            ring
          rw [e1, e2, e3]
        · rw [if_neg (by
            unfold decHasTempoUs
            push_neg
            intro
            exact hmem)]
          rw [← he, decLevelShape_noUs cfg k hk0 hmem B m a b hm ha hb]
          simp only []
          have hrec := ih (by omega) B m (a * 2) (b * 2) hB hm (by omega)
            (by omega)
          rw [hmin] at hrec
          have he2 : cfg.ch * cfg.ch_mult.getD k 0 = decBlockOut cfg k := rfl
          rw [he2] at hrec
          rw [hrec]
          have e2 : 2 ^ (k - 1) * (a * 2) = 2 ^ (k + 1 - 1) * a := by
            have hx : k + 1 - 1 = (k - 1) + 1 := by omega
            rw [hx, pow_succ]
            ring
          have e3 : 2 ^ (k - 1) * (b * 2) = 2 ^ (k + 1 - 1) * b := by
            have hx : k + 1 - 1 = (k - 1) + 1 := by omega
            rw [hx, pow_succ]
            ring
          rw [Nat.add_zero, e2, e3]

theorem decoderShape_eq (cfg : DecCfg) (hL : 1 ≤ cfg.ch_mult.length)
    (B m a b : Nat) (hB : 1 ≤ B) (hm : 1 ≤ m) (ha : 1 ≤ a) (hb : 1 ≤ b) :
    decoderShape cfg ⟨B, cfg.z_channels, m, a, b⟩
      = some ⟨B, cfg.out_channels,
          2 ^ decTempoCount cfg.ch_mult.length * m,
          2 ^ (cfg.ch_mult.length - 1) * a, 2 ^ (cfg.ch_mult.length - 1) * b⟩ := by
  unfold decoderShape
  rw [if_neg (by
    simp only [List.isEmpty_iff]
    intro hc
    rw [hc] at hL
    simp at hL)]
  simp only [makeConv3Shape_eq cfg.is_causal cfg.z_channels
    (cfg.ch * cfg.ch_mult.getD (cfg.ch_mult.length - 1) 0) B m a b hm ha hb]
  simp only [midShape_eq cfg.is_causal
    (cfg.ch * cfg.ch_mult.getD (cfg.ch_mult.length - 1) 0) B m a b hm ha hb]
  have hrun := decLevelsShape_run cfg cfg.ch_mult.length (by omega) B m a b
    hB hm ha hb
  rw [show min cfg.ch_mult.length (cfg.ch_mult.length - 1) =
    cfg.ch_mult.length - 1 from by omega] at hrun
  simp only [hrun]
  rw [if_pos trivial]
  unfold decTempoCount
  exact makeConv3Shape_eq cfg.is_causal _ _ B _ _ _
    (one_le_two_pow_mul _ m hm) (one_le_two_pow_mul _ a ha)
    (one_le_two_pow_mul _ b hb)

theorem decTempoCount_eq_min (L : Nat) : decTempoCount L = min 2 (L - 1) := by
  induction L with
  | zero => rfl
  | succ n ih =>
      unfold decTempoCount
      rw [decTempoCountOn_snoc]
      by_cases h3 : n < 3
      · interval_cases n <;> rfl
      · rw [if_neg (by
          unfold decHasTempoUs tempoUs
          push_neg
          intro _
          simp only [List.mem_cons, List.mem_singleton]
          push_neg
          refine ⟨by omega, by omega, ?_⟩
          simp)]
        unfold decTempoCount at ih
        rw [Nat.add_zero, ih]
        rw [min_eq_left (by omega : 2 ≤ n - 1),
          min_eq_left (by omega : 2 ≤ n + 1 - 1)]

theorem encTempoCount_eq_min (L : Nat) : encTempoCount L = min 2 (L - 1) := by
  match L with
  | 0 => rfl
  | 1 => rfl
  | 2 => rfl
  | (n + 3) =>
    unfold encTempoCount encTempoCountOn
    rw [List.range_succ, List.range_succ, List.range_succ, List.filter_append,
      List.filter_append, List.filter_append]
    have h0 : (List.range n).filter
        (fun i => decide (encHasTempoDs (n + 3) i)) = [] := by
      rw [List.filter_eq_nil_iff]
      intro x hx
      have hxn : x < n := List.mem_range.mp hx
      simp only [decide_eq_true_eq]
      unfold encHasTempoDs tempoDs
      simp only [List.mem_cons, List.mem_singleton, List.not_mem_nil]
      push_neg
      intro _
      constructor <;> [skip; constructor] <;> [omega; omega; simp]
    have h1 : ([n] : List Nat).filter
        (fun i => decide (encHasTempoDs (n + 3) i)) = [n] := by
      rw [List.filter_eq_self]
      intro x hx
      rw [List.mem_singleton] at hx
      subst hx
      simp only [decide_eq_true_eq]
      unfold encHasTempoDs tempoDs
      simp only [List.mem_cons, List.mem_singleton]
      constructor
      · omega
      · right
        left
        push_cast
        omega
    have h2 : ([n + 1] : List Nat).filter
        (fun i => decide (encHasTempoDs (n + 3) i)) = [n + 1] := by
      rw [List.filter_eq_self]
      intro x hx
      rw [List.mem_singleton] at hx
      subst hx
      simp only [decide_eq_true_eq]
      unfold encHasTempoDs tempoDs
      simp only [List.mem_cons, List.mem_singleton]
      constructor
      · omega
      · left
        push_cast
        omega
    have h3 : ([n + 2] : List Nat).filter
        (fun i => decide (encHasTempoDs (n + 3) i)) = [] := by
      rw [List.filter_eq_nil_iff]
      intro x hx
      rw [List.mem_singleton] at hx
      subst hx
      simp only [decide_eq_true_eq]
      unfold encHasTempoDs
      push_neg
      intro hc
      exact absurd rfl hc
    rw [h0, h1, h2, h3]
    simp only [List.length_append, List.length_nil, List.length_singleton]
    rw [min_eq_left (by omega : 2 ≤ n + 3 - 1)]

theorem pad_align (T P : Nat) (hT : 1 ≤ T) (hP : 1 ≤ P) :
    ∃ m, 1 ≤ m ∧ T + (if T % P ≠ 0 then P - T % P else 0) = P * m := by
  have hdm := Nat.div_add_mod T P
  by_cases h : T % P = 0
  · refine ⟨T / P, ?_, ?_⟩
    · rcases Nat.eq_zero_or_pos (T / P) with h0 | h0
      · rw [h0, Nat.mul_zero] at hdm
        omega
      · exact h0
    · rw [if_neg (by omega), Nat.mul_div_cancel' (Nat.dvd_of_mod_eq_zero h)]
      omega
  · refine ⟨T / P + 1, Nat.succ_le_succ (Nat.zero_le _), ?_⟩
    have hlt : T % P < P := Nat.mod_lt T (by omega)
    rw [if_pos h, Nat.mul_succ]
    omega

/-- C1: for every valid configuration (nonempty `ch_mult`, at least one
resblock, `temporal_compression_ratio` equal to the encoder's temporal factor
`2^(number of temporal-downsample levels)` as the spec's invariant demands,
`out_channels = in_channels`, and a regularizer/double_z pairing that
type-checks: "kl" with `double_z`, "fsq" without) and every 5D input whose
spatial extents are positive multiples of `2^(L−1)`, `forward` returns a
tensor of exactly the input's shape: the replicate left-padding of the time
axis up to the next multiple of `temporal_compression_ratio`, encoding,
decoding, and stripping of the padded leading frames compensate exactly. -/
theorem C1_forward_shape_roundtrip (cfg : ModelCfg) (s : Shape5)
    (hL : 1 ≤ cfg.ch_mult.length)
    (hnr : 1 ≤ cfg.num_res_blocks)
    (htc : cfg.temporal_compression = 2 ^ encTempoCount cfg.ch_mult.length)
    (hio : cfg.out_channels = cfg.in_channels)
    (hreg : (cfg.regularizer = "kl" ∧ cfg.double_z = true)
          ∨ (cfg.regularizer = "fsq" ∧ cfg.double_z = false))
    (hC : s.C = cfg.in_channels) (hB : 1 ≤ s.B) (hT : 1 ≤ s.T)
    (hH : ∃ a, 1 ≤ a ∧ s.H = 2 ^ (cfg.ch_mult.length - 1) * a)
    (hW : ∃ b, 1 ≤ b ∧ s.W = 2 ^ (cfg.ch_mult.length - 1) * b) :
    forwardShape cfg s = some s := by
  obtain ⟨a, ha, hHa⟩ := hH
  obtain ⟨b, hb, hWb⟩ := hW
  obtain ⟨B, C, T, H, W⟩ := s
  simp only [] at hC hT hB hHa hWb
  subst hC
  subst hHa
  subst hWb
  have hP1 : 1 ≤ cfg.temporal_compression := by
    rw [htc]
    exact Nat.one_le_two_pow
  obtain ⟨m, hm, hTm⟩ := pad_align T cfg.temporal_compression hT hP1
  unfold forwardShape
  simp only []
  rw [hTm, htc]
  have hLe : 1 ≤ cfg.encCfg.ch_mult.length := hL
  have hnre : 1 ≤ cfg.encCfg.num_res_blocks := hnr
  have henc := encoderShape_eq cfg.encCfg hLe hnre B m a b hm ha hb
  simp only [ModelCfg.encCfg] at henc
  have hLd : 1 ≤ cfg.decCfg.ch_mult.length := hL
  have hdec := decoderShape_eq cfg.decCfg hLd B m a b hB hm ha hb
  simp only [ModelCfg.decCfg] at hdec
  rw [decTempoCount_eq_min, ← encTempoCount_eq_min] at hdec
  rcases hreg with ⟨hr, hdz⟩ | ⟨hr, hdz⟩
  · simp only [hdz, if_true] at henc
    simp only [ModelCfg.encCfg, ModelCfg.decCfg, hdz, hr]
    simp only [henc]
    have hbeq : (("kl" : String) == "kl") = true := by decide
    simp only [hbeq, if_true]
    unfold gaussianShape
    simp only []
    rw [if_pos (by omega)]
    have hz2 : 2 * cfg.z_channels / 2 = cfg.z_channels := by omega
    rw [hz2]
    simp only [hdec]
    have hsub : 2 ^ encTempoCount cfg.ch_mult.length * m -
        (if T % 2 ^ encTempoCount cfg.ch_mult.length ≠ 0
          then 2 ^ encTempoCount cfg.ch_mult.length -
            T % 2 ^ encTempoCount cfg.ch_mult.length
          else 0) = T := by
      rw [htc] at hTm
      omega
    rw [hsub, hio]
  · simp only [hdz, Bool.false_eq_true, if_false] at henc
    simp only [ModelCfg.encCfg, ModelCfg.decCfg, hdz, hr]
    simp only [henc]
    have hbeq : (("fsq" : String) == "kl") = false := by decide
    simp only [hbeq, Bool.false_eq_true, if_false]
    simp only [fsqShape]
    simp only [hdec]
    have hsub : 2 ^ encTempoCount cfg.ch_mult.length * m -
        (if T % 2 ^ encTempoCount cfg.ch_mult.length ≠ 0
          then 2 ^ encTempoCount cfg.ch_mult.length -
            T % 2 ^ encTempoCount cfg.ch_mult.length
          else 0) = T := by
      rw [htc] at hTm
      omega
    rw [hsub, hio]


/-- C1 witness: the default configuration on a `(1, 3, 17, 256, 256)` input
(time 17 not a multiple of 4). -/
theorem C1_forward_shape_roundtrip_witness :
    forwardShape c1cfg ⟨1, 3, 17, 256, 256⟩ = some ⟨1, 3, 17, 256, 256⟩ :=
  C1_forward_shape_roundtrip c1cfg ⟨1, 3, 17, 256, 256⟩ (by decide) (by decide)
    (by decide) (by decide) (Or.inl ⟨rfl, rfl⟩) (by decide) (by decide)
    (by decide) ⟨32, by decide, by decide⟩ ⟨32, by decide, by decide⟩

/-- C4 (amended): for every encoder configuration with `L ≥ 3` levels,
temporal downsampling happens exactly at pyramid levels `L−2` and `L−3`; in
general the number of temporal-downsample levels is `min 2 (L−1)` (so the
total temporal factor is `2^min 2 (L−1)`), and the decoder's temporal
upsample count always matches the encoder's.  The code does NOT enforce that
this factor equals the configured `temporal_compression_ratio`: see the
counterexample, a constructable configuration with factor 4 but ratio 8. -/
theorem C4_temporal_structure :
    (∀ L i : Nat, 3 ≤ L → (encHasTempoDs L i ↔ (i = L - 2 ∨ i = L - 3)))
    ∧ (∀ L : Nat, encTempoCount L = min 2 (L - 1)
        ∧ decTempoCount L = encTempoCount L) := by
  constructor
  · intro L i h3
    unfold encHasTempoDs tempoDs
    simp only [List.mem_cons, List.mem_singleton, List.not_mem_nil, or_false]
    omega
  · intro L
    exact ⟨encTempoCount_eq_min L, by
      rw [decTempoCount_eq_min, encTempoCount_eq_min]⟩

/-- C4 witness: at `L = 4`, level 2 (= L−2) temporally downsamples and the
count is `min 2 3 = 2`. -/
theorem C4_temporal_structure_witness :
    encHasTempoDs 4 2 ∧ encTempoCount 4 = min 2 3 :=
  ⟨(C4_temporal_structure.1 4 2 (by decide)).mpr (Or.inl (by decide)),
   (C4_temporal_structure.2 4).1⟩


/-- C4 counterexample: the configuration `c4cfg` (ch_mult of length 4,
`temporal_compression_ratio = 8`) passes all constructor checks, yet the
encoder's actual total temporal downsampling factor is `2^2 = 4 ≠ 8`. -/
theorem C4_factor_not_enforced :
    initChecks c4cfg.regularizer c4cfg.z_channels c4cfg.double_z 262144 = true
    ∧ 2 ^ encTempoCount c4cfg.ch_mult.length = 4
    ∧ c4cfg.temporal_compression = 8
    ∧ (4 : Nat) ≠ 8 := by
  refine ⟨by simp [initChecks, c4cfg], by decide, rfl, by decide⟩

/-- A batch shift passes through `padded3` (padding touches only trailing
axes). -/
theorem padded3_bshift (mode : PadMode) (pt ph pw : Int) (T H W : Nat)
    (x : T5) (n : Nat) :
    padded3 mode pt ph pw T H W (bshift x n) =
      bshift (padded3 mode pt ph pw T H W x) n := rfl

/-- A batch shift passes through `conv3dApply`. -/
theorem conv3dApply_bshift (c : Conv3d) (x : T5) (n : Nat) :
    conv3dApply c (bshift x n) = bshift (conv3dApply c x) n := rfl

/-- A batch shift passes through `VidTokCausalConv3d.forward`. -/
theorem causalConv3d_forward_bshift (m : VidTokCausalConv3d)
    (T H W : Nat) (x : T5) (n : Nat) :
    m.forward T H W (bshift x n) = bshift (m.forward T H W x) n := rfl

/-- A batch shift passes through either form of 3D convolution. -/
theorem mkConv3_apply_bshift (mc : MkConv3) (T H W : Nat) (x : T5)
    (n : Nat) :
    mc.apply T H W (bshift x n) = bshift (mc.apply T H W x) n := by
  cases mc <;> rfl

/-- A batch shift passes through elementwise maps. -/
theorem emap5_bshift (f : ℚ → ℚ) (x : T5) (n : Nat) :
    emap5 f (bshift x n) = bshift (emap5 f x) n := rfl

/-- A batch shift passes through the per-position channel map. -/
theorem normChan5_bshift (nrm : (Nat → ℚ) → Nat → ℚ) (x : T5) (n : Nat) :
    normChan5 nrm (bshift x n) = bshift (normChan5 nrm x) n := rfl

/-- A batch shift passes through `VidTokDownsample3D.forward` (either
branch). -/
theorem downsample3DMix_apply_bshift (d : Downsample3DMix) (T H W : Nat)
    (x : T5) (n : Nat) :
    d.apply T H W (bshift x n) = bshift (d.apply T H W x) n := by
  cases d <;> rfl

/-- A batch shift passes through the 3D resnet block. -/
theorem resnetBlock3D_forward_bshift (E : ExtMaps) (m : ResnetBlock3DM)
    (T H W : Nat) (x : T5) (n : Nat) :
    m.forward E T H W (bshift x n) = bshift (m.forward E T H W x) n := by
  funext b c t h w
  simp only [ResnetBlock3DM.forward, mkConv3_apply_bshift, emap5_bshift,
    normChan5_bshift]
  split
  · split <;> rfl
  · rfl

/-- A batch shift passes through the attention core (the `(h w)` collapse
touches no leading axis). -/
theorem attCore_bshift
    (sdpa : (Nat → Nat → ℚ) → (Nat → Nat → ℚ) → (Nat → Nat → ℚ) →
      Nat → Nat → ℚ) (W : Nat) (q k v : T5) (n : Nat) :
    attCore sdpa W (bshift q n) (bshift k n) (bshift v n) =
      bshift (attCore sdpa W q k v) n := rfl

/-- A batch shift passes through the 3D attention block. -/
theorem attnBlockW_forward_bshift (E : ExtMaps) (m : AttnBlockWM)
    (T H W : Nat) (x : T5) (n : Nat) :
    m.forward E T H W (bshift x n) = bshift (m.forward E T H W x) n := by
  simp only [AttnBlockWM.forward, normChan5_bshift, mkConv3_apply_bshift,
    attCore_bshift]
  rfl

/-- A dim-0 shift passes through `bpadded1`. -/
theorem bpadded1_shiftD3 (mode : PadMode) (pl : Int) (T : Nat) (x : T3)
    (n : Nat) :
    bpadded1 mode pl T (shiftD3 x n) = shiftD3 (bpadded1 mode pl T x) n := rfl

/-- A dim-0 shift passes through `bconv1dApply`. -/
theorem bconv1dApply_shiftD3 (c : Conv1d) (x : T3) (n : Nat) :
    bconv1dApply c (shiftD3 x n) = shiftD3 (bconv1dApply c x) n := rfl

/-- A dim-0 shift passes through either form of 1D convolution. -/
theorem mkConv1_apply_shiftD3 (mc : MkConv1) (T : Nat) (x : T3) (n : Nat) :
    mc.apply T (shiftD3 x n) = shiftD3 (mc.apply T x) n := by
  cases mc <;> rfl

/-- A dim-0 shift passes through elementwise maps on (dim0, channel, time)
tensors. -/
theorem emap3_shiftD3 (f : ℚ → ℚ) (x : T3) (n : Nat) :
    emap3 f (shiftD3 x n) = shiftD3 (emap3 f x) n := rfl

/-- A dim-0 shift passes through the per-position channel map on
(dim0, channel, time) tensors. -/
theorem normChan3_shiftD3 (nrm : (Nat → ℚ) → Nat → ℚ) (x : T3) (n : Nat) :
    normChan3 nrm (shiftD3 x n) = shiftD3 (normChan3 nrm x) n := rfl

/-- A dim-0 shift passes through the 1D resnet block. -/
theorem resnetBlock1D_forward_shiftD3 (E : ExtMaps) (m : ResnetBlock1DM)
    (T : Nat) (x : T3) (n : Nat) :
    m.forward E T (shiftD3 x n) = shiftD3 (m.forward E T x) n := by
  funext i c t
  simp only [ResnetBlock1DM.forward, mkConv1_apply_shiftD3, emap3_shiftD3,
    normChan3_shiftD3]
  split
  · split <;> rfl
  · rfl

/-- A dim-0 shift passes through `bpadded2`. -/
theorem bpadded2_shiftD4 (p : Int) (H W : Nat) (x : T4) (n : Nat) :
    bpadded2 p H W (shiftD4 x n) = shiftD4 (bpadded2 p H W x) n := rfl

/-- A dim-0 shift passes through `conv2dForward`. -/
theorem conv2dForward_shiftD4 (c : Conv2dM) (H W : Nat) (x : T4) (n : Nat) :
    conv2dForward c H W (shiftD4 x n) = shiftD4 (conv2dForward c H W x) n :=
  rfl

/-- A dim-0 shift passes through elementwise maps on 4D tensors. -/
theorem emap4_shiftD4 (f : ℚ → ℚ) (x : T4) (n : Nat) :
    emap4 f (shiftD4 x n) = shiftD4 (emap4 f x) n := rfl

/-- A dim-0 shift passes through the per-position channel map on 4D
tensors. -/
theorem normChan4_shiftD4 (nrm : (Nat → ℚ) → Nat → ℚ) (x : T4) (n : Nat) :
    normChan4 nrm (shiftD4 x n) = shiftD4 (normChan4 nrm x) n := rfl

/-- A dim-0 shift passes through the 2D resnet block. -/
theorem resnetBlock2D_forward_shiftD4 (E : ExtMaps) (m : ResnetBlock2DM)
    (H W : Nat) (x : T4) (n : Nat) :
    m.forward E H W (shiftD4 x n) = shiftD4 (m.forward E H W x) n := by
  funext i c h w
  simp only [ResnetBlock2DM.forward, conv2dForward_shiftD4, emap4_shiftD4,
    normChan4_shiftD4]
  split
  · split <;> rfl
  · rfl

/-- A dim-0 shift passes through the spec-modelled spatial downsample
(a per-frame map). -/
theorem downsample2dLift_shiftD4
    (f : (Nat → Nat → Nat → ℚ) → Nat → Nat → Nat → ℚ) (x : T4) (n : Nat) :
    downsample2dLift f (shiftD4 x n) = shiftD4 (downsample2dLift f x) n :=
  rfl

/-- The `(b t)` collapse turns a batch shift by `n` into a dim-0 shift by
`n·T` (for a positive time extent). -/
theorem rearrBT_bshift (T : Nat) (hT : 0 < T) (x : T5) (n : Nat) :
    rearrBT T (bshift x n) = shiftD4 (rearrBT T x) (n * T) := by
  funext i c h w
  show x (n + i / T) c (i % T) h w = x ((n * T + i) / T) c ((n * T + i) % T) h w
  have h1 : (n * T + i) / T = n + i / T := by
    rw [Nat.add_comm, Nat.add_mul_div_right _ _ hT, Nat.add_comm]
  have h2 : (n * T + i) % T = i % T := by
    rw [Nat.add_comm, Nat.add_mul_mod_self_right]
  rw [h1, h2]

/-- The `(b t)` restore turns a dim-0 shift by `n·T` back into a batch
shift by `n`. -/
theorem rearrBTinv_shiftD4 (T : Nat) (y : T4) (n : Nat) :
    rearrBTinv T (shiftD4 y (n * T)) = bshift (rearrBTinv T y) n := by
  funext b c t h w
  show y (n * T + (b * T + t)) c h w = y ((n + b) * T + t) c h w
  congr 1
  ring

/-- The `(b h w)` collapse turns a batch shift by `n` into a dim-0 shift by
`n·H·W` (for positive spatial extents). -/
theorem rearrBHW_bshift (H W : Nat) (hHW : 0 < H * W) (x : T5) (n : Nat) :
    rearrBHW H W (bshift x n) = shiftD3 (rearrBHW H W x) (n * (H * W)) := by
  funext i c t
  show x (n + i / (H * W)) c t (i % (H * W) / W) (i % (H * W) % W) =
    x ((n * (H * W) + i) / (H * W)) c t
      ((n * (H * W) + i) % (H * W) / W) ((n * (H * W) + i) % (H * W) % W)
  have h1 : (n * (H * W) + i) / (H * W) = n + i / (H * W) := by
    rw [Nat.add_comm, Nat.add_mul_div_right _ _ hHW, Nat.add_comm]
  have h2 : (n * (H * W) + i) % (H * W) = i % (H * W) := by
    rw [Nat.add_comm, Nat.add_mul_mod_self_right]
  rw [h1, h2]

/-- The `(b h w)` restore turns a dim-0 shift by `n·H·W` back into a batch
shift by `n`. -/
theorem rearrBHWinv_shiftD3 (H W : Nat) (y : T3) (n : Nat) :
    rearrBHWinv H W (shiftD3 y (n * (H * W))) = bshift (rearrBHWinv H W y) n := by
  funext b c t h w
  show y (n * (H * W) + (b * (H * W) + (h * W + w))) c t =
    y ((n + b) * (H * W) + (h * W + w)) c t
  congr 1
  ring

/-- A batch shift passes through `spatial_temporal_resblk` whenever the
collapsed extents are positive. -/
theorem spatial_temporal_resblk_bshift (E : ExtMaps) (bs : ResnetBlock2DM)
    (bt : ResnetBlock1DM) (T H W : Nat) (hT : 0 < T) (hH : 0 < H)
    (hW : 0 < W) (x : T5) (n : Nat) :
    spatial_temporal_resblk E bs bt T H W (bshift x n) =
      bshift (spatial_temporal_resblk E bs bt T H W x) n := by
  unfold spatial_temporal_resblk
  rw [rearrBT_bshift T hT, resnetBlock2D_forward_shiftD4,
    rearrBTinv_shiftD4, rearrBHW_bshift H W (Nat.mul_pos hH hW),
    resnetBlock1D_forward_shiftD3, rearrBHWinv_shiftD3]

/-- A batch shift passes through a level's resnet-pair fold. -/
theorem blocksFold_bshift (E : ExtMaps) (T H W : Nat) (hT : 0 < T)
    (hH : 0 < H) (hW : 0 < W) (n : Nat) :
    ∀ (bl : List (ResnetBlock2DM × ResnetBlock1DM)) (x : T5),
      bl.foldl (fun a pr => spatial_temporal_resblk E pr.1 pr.2 T H W a)
          (bshift x n) =
        bshift
          (bl.foldl (fun a pr => spatial_temporal_resblk E pr.1 pr.2 T H W a)
            x) n := by
  intro bl
  induction bl with
  | nil => intro x; rfl
  | cons p rest ih =>
      intro x
      simp only [List.foldl_cons]
      rw [spatial_temporal_resblk_bshift E p.1 p.2 T H W hT hH hW]
      exact ih _

/-- A batch shift passes through the encoder level loop whenever all
intermediate extents are positive, and it leaves the extent bookkeeping
untouched. -/
theorem encLevelsForward_bshift (E : ExtMaps) (L : Nat) :
    ∀ (ls : List EncLevelM) (i T H W : Nat) (x : T5) (n : Nat),
      encPosB L ls i T H W = true →
      encLevelsForward E L ls i T H W (bshift x n) =
        ((encLevelsForward E L ls i T H W x).1,
          bshift (encLevelsForward E L ls i T H W x).2 n) := by
  intro ls
  induction ls with
  | nil => intro i T H W x n _; rfl
  | cons lv rest ih =>
      intro i T H W x n hpos
      simp only [encPosB, Bool.and_eq_true, bne_iff_ne, ne_eq] at hpos
      obtain ⟨⟨⟨hT0, hH0⟩, hW0⟩, hrest⟩ := hpos
      have hT : 0 < T := by omega
      have hH : 0 < H := by omega
      have hW : 0 < W := by omega
      by_cases hi : i = L - 1
      · rw [if_pos hi] at hrest
        simp only [encLevelsForward, if_pos hi]
        rw [blocksFold_bshift E T H W hT hH hW]
        exact ih (i + 1) T H W _ n hrest
      · rw [if_neg hi] at hrest
        by_cases ht : (i : Int) ∈ tempoDs L
        · rw [if_pos ht] at hrest
          simp only [encLevelsForward, if_neg hi, if_pos ht]
          rw [blocksFold_bshift E T H W hT hH hW, rearrBT_bshift T hT,
            downsample2dLift_shiftD4, rearrBTinv_shiftD4,
            downsample3DMix_apply_bshift]
          exact ih (i + 1) (ds3T T) (H / 2) (W / 2) _ n hrest
        · rw [if_neg ht] at hrest
          simp only [encLevelsForward, if_neg hi, if_neg ht]
          rw [blocksFold_bshift E T H W hT hH hW, rearrBT_bshift T hT,
            downsample2dLift_shiftD4, rearrBTinv_shiftD4]
          exact ih (i + 1) T (H / 2) (W / 2) _ n hrest

/-- A batch shift passes through the whole `VidTokEncoder3D.forward`
whenever the level loop's intermediate extents are positive. -/
theorem encoderForward_bshift (E : ExtMaps) (m : Encoder3DM) (T H W : Nat)
    (hpos : encPosB m.levels.length m.levels 0 T H W = true) (x : T5)
    (n : Nat) :
    m.forward E T H W (bshift x n) = bshift (m.forward E T H W x) n := by
  simp only [Encoder3DM.forward]
  rw [mkConv3_apply_bshift,
    encLevelsForward_bshift E m.levels.length m.levels 0 T H W _ n hpos]
  rw [resnetBlock3D_forward_bshift, attnBlockW_forward_bshift,
    resnetBlock3D_forward_bshift, normChan5_bshift, emap5_bshift,
    mkConv3_apply_bshift]

/-- Batch-shifting both arguments (and overwriting the unread batch-extent
field) commutes with `blend_v`. -/
theorem blend_v_shiftB (k n : Nat) (a b : Tile) (e : Nat) :
    blend_v (setTileB k (tshift a n)) (setTileB k (tshift b n)) e =
      setTileB k (tshift (blend_v a b e) n) := rfl

/-- Batch-shifting both arguments (and overwriting the unread batch-extent
field) commutes with `blend_h`. -/
theorem blend_h_shiftB (k n : Nat) (a b : Tile) (e : Nat) :
    blend_h (setTileB k (tshift a n)) (setTileB k (tshift b n)) e =
      setTileB k (tshift (blend_h a b e) n) := rfl

/-- The blended-tile recurrence commutes with any pointwise tile map that
commutes with both blends. -/
theorem blendedRef_gmap (f : Tile → Tile)
    (hv : ∀ a b e, blend_v (f a) (f b) e = f (blend_v a b e))
    (hh : ∀ a b e, blend_h (f a) (f b) e = f (blend_h a b e))
    (raw : Nat → Nat → Tile) (beh bew : Nat) :
    ∀ s i j, i + j = s →
      blendedRef (gmap f raw) beh bew i j = f (blendedRef raw beh bew i j) := by
  intro s
  induction s using Nat.strong_induction_on with
  | _ s ih =>
    intro i j hs
    conv_lhs => rw [blendedRef]
    conv_rhs => rw [blendedRef]
    by_cases hj : 0 < j <;> by_cases hi : 0 < i <;>
      simp only [hj, hi, if_true, if_false]
    · rw [ih (i + (j - 1)) (by omega) i (j - 1) rfl,
        ih (i - 1 + j) (by omega) (i - 1) j rfl,
        show gmap f raw i j = f (raw i j) from rfl, hv, hh]
    · rw [ih (i + (j - 1)) (by omega) i (j - 1) rfl,
        show gmap f raw i j = f (raw i j) from rfl, hh]
    · rw [ih (i - 1 + j) (by omega) (i - 1) j rfl,
        show gmap f raw i j = f (raw i j) from rfl, hv]
    · rfl

/-- Full characterization of the stitching pass: inside the grid it
computes the blended recurrence, outside it leaves the raw tile. -/
theorem stitchLoop_char (raw : Nat → Nat → Tile)
    (beh bew nrows ncols i j : Nat) :
    stitchLoop beh bew nrows ncols raw i j =
      if i < nrows ∧ j < ncols then blendedRef raw beh bew i j
      else raw i j := by
  have h0 : stitchInv raw beh bew ncols 0 0 raw := by
    intro i j
    rw [if_neg (by omega)]
  have hrows := stitchRows_inv raw beh bew ncols nrows 0 raw h0
  rw [Nat.zero_add] at hrows
  unfold stitchLoop
  rw [List.range_eq_range', hrows i j]
  exact if_congr (by omega) rfl rfl

/-- The stitching pass commutes with the combined batch-shift/extent map of
the whole grid. -/
theorem stitchLoop_gmapBT (raw : Nat → Nat → Tile)
    (k n beh bew nr nc : Nat) (r s : Nat) :
    stitchLoop beh bew nr nc (gmap (fun tl => setTileB k (tshift tl n)) raw)
        r s =
      setTileB k (tshift (stitchLoop beh bew nr nc raw r s) n) := by
  rw [stitchLoop_char, stitchLoop_char]
  split
  · exact blendedRef_gmap _ (blend_v_shiftB k n) (blend_h_shiftB k n)
      raw beh bew (r + s) r s rfl
  · rfl

/-- A batch shift passes through width-concatenation of tiles. -/
theorem catTilesW_bshift (n : Nat) :
    ∀ l : List (Nat × T5),
      catTilesW (l.map (fun p => (p.1, bshift p.2 n))) =
        bshift (catTilesW l) n := by
  intro l
  induction l with
  | nil => rfl
  | cons p rest ih =>
      obtain ⟨w0, v⟩ := p
      funext b c t h w
      simp only [List.map_cons, catTilesW]
      rw [ih]
      simp only [bshift]

/-- A batch shift passes through height-concatenation of rows. -/
theorem catTilesH_bshift (n : Nat) :
    ∀ l : List (Nat × T5),
      catTilesH (l.map (fun p => (p.1, bshift p.2 n))) =
        bshift (catTilesH l) n := by
  intro l
  induction l with
  | nil => rfl
  | cons p rest ih =>
      obtain ⟨h0, v⟩ := p
      funext b c t h w
      simp only [List.map_cons, catTilesH]
      rw [ih]
      simp only [bshift]

/-- The crop-and-concatenate pass turns a gridwise batch shift into a batch
shift of the stitched output (the overwritten batch-extent field is never
read). -/
theorem stitchOut_shift (g1 g2 : Nat → Nat → Tile) (k n : Nat)
    (hg : ∀ r s, g1 r s = setTileB k (tshift (g2 r s) n))
    (nr nc rlh rlw : Nat) :
    stitchOut g1 nr nc rlh rlw = bshift (stitchOut g2 nr nc rlh rlw) n := by
  unfold stitchOut
  have inner : ∀ r,
      (List.range nc).map (fun s => (min (g1 r s).W rlw, (g1 r s).val)) =
        ((List.range nc).map (fun s => (min (g2 r s).W rlw, (g2 r s).val))).map
          (fun p => (p.1, bshift p.2 n)) := by
    intro r
    rw [List.map_map]
    apply List.map_congr_left
    intro s _
    rw [hg r s]
    rfl
  have outer :
      (List.range nr).map (fun r =>
          (min (g1 r 0).H rlh,
            catTilesW ((List.range nc).map (fun s =>
              (min (g1 r s).W rlw, (g1 r s).val))))) =
        ((List.range nr).map (fun r =>
          (min (g2 r 0).H rlh,
            catTilesW ((List.range nc).map (fun s =>
              (min (g2 r s).W rlw, (g2 r s).val)))))).map
          (fun p => (p.1, bshift p.2 n)) := by
    rw [List.map_map]
    apply List.map_congr_left
    intro r _
    rw [inner r, catTilesW_bshift, hg r 0]
    rfl
  rw [outer, catTilesH_bshift]

/-- Every offset read from `range(0, stop, step)` (including the
out-of-range default 0) is below a positive `stop`. -/
theorem stepRange_getD_lt (stop step : Nat) (h0 : 0 < stop) (r : Nat) :
    (stepRange stop step).getD r 0 < stop := by
  unfold stepRange
  rw [List.getD_eq_getElem?_getD, List.getElem?_map]
  by_cases hr : r < (stop + step - 1) / step
  · rw [List.getElem?_range hr]
    simp only [Option.map_some', Option.getD_some]
    rcases Nat.eq_zero_or_pos step with hs | hs
    · subst hs
      simp at hr
    · have h2 : (r + 1) * step ≤ ((stop + step - 1) / step) * step :=
        Nat.mul_le_mul_right _ hr
      have h3 : r * step + step ≤ stop + step - 1 := by
        calc r * step + step = (r + 1) * step := by ring
        _ ≤ ((stop + step - 1) / step) * step := h2
        _ ≤ stop + step - 1 := Nat.div_mul_le_self _ _
      generalize r * step = a at h3 ⊢
      omega
  · rw [List.getElem?_eq_none (by simpa using hr)]
    simpa using h0

/-- The raw tile grid of a batch-shifted input is the tile-wise batch shift
of the raw grid of the input (with the unread batch-extent field replaced),
whenever every crop's extents satisfy the encoder validity bound. -/
theorem tiledGrid_shift (E : ExtMaps) (m : Encoder3DM) (ts : TilingState)
    (B1 B2 T H W : Nat) (is js : List Nat)
    (his : ∀ r, is.getD r 0 < H) (hjs : ∀ s, js.getD s 0 < W)
    (hcrop : ∀ ii, ii < H → ∀ jj, jj < W →
      encPosB m.levels.length m.levels 0 T
        (min ts.tile_sample_min_height (H - ii))
        (min ts.tile_sample_min_width (W - jj)) = true)
    (x : T5) (n : Nat) :
    tiledGrid E m ts B1 T H W is js (bshift x n) =
      gmap (fun tl => setTileB B1 (tshift tl n))
        (tiledGrid E m ts B2 T H W is js x) := by
  funext r s
  have hv : m.forward E T
      (min ts.tile_sample_min_height (H - is.getD r 0))
      (min ts.tile_sample_min_width (W - js.getD s 0))
      (crop5 (bshift x n) (is.getD r 0) (js.getD s 0)) =
    bshift (m.forward E T
      (min ts.tile_sample_min_height (H - is.getD r 0))
      (min ts.tile_sample_min_width (W - js.getD s 0))
      (crop5 x (is.getD r 0) (js.getD s 0))) n := by
    rw [show crop5 (bshift x n) (is.getD r 0) (js.getD s 0) =
      bshift (crop5 x (is.getD r 0) (js.getD s 0)) n from rfl]
    exact encoderForward_bshift E m T _ _
      (hcrop _ (his r) _ (hjs s)) _ n
  unfold tiledGrid gmap setTileB tshift
  rw [hv]

/-- A batch shift passes through the whole `tiled_encode` (for any recorded
batch extents) whenever the crop extents of every tile satisfy the encoder
validity bound. -/
theorem tiledEncodeM_bshift (E : ExtMaps) (m : Encoder3DM)
    (ts : TilingState) (B1 B2 T H W : Nat) (hH : 0 < H) (hW : 0 < W)
    (hcrop : ∀ ii, ii < H → ∀ jj, jj < W →
      encPosB m.levels.length m.levels 0 T
        (min ts.tile_sample_min_height (H - ii))
        (min ts.tile_sample_min_width (W - jj)) = true)
    (x : T5) (n : Nat) :
    tiledEncodeM E m ts B1 T H W (bshift x n) =
      bshift (tiledEncodeM E m ts B2 T H W x) n := by
  simp only [tiledEncodeM]
  apply stitchOut_shift _ _ B1 n
  intro r s
  rw [tiledGrid_shift E m ts B1 B2 T H W _ _
    (stepRange_getD_lt H _ hH) (stepRange_getD_lt W _ hW) hcrop x n]
  exact stitchLoop_gmapBT _ B1 n _ _ _ _ r s

/-- A batch shift passes through `_encode` (both the tiled and the
whole-tensor branch take it; for any recorded batch extents). -/
theorem encodeU_bshift (E : ExtMaps) (m : Encoder3DM) (ts : TilingState)
    (B1 B2 T H W : Nat) (hH : 0 < H) (hW : 0 < W)
    (hpos : encPosB m.levels.length m.levels 0 T H W = true)
    (hcrop : ts.use_tiling = true → ∀ ii, ii < H → ∀ jj, jj < W →
      encPosB m.levels.length m.levels 0 T
        (min ts.tile_sample_min_height (H - ii))
        (min ts.tile_sample_min_width (W - jj)) = true)
    (x : T5) (n : Nat) :
    encodeU E m ts B1 T H W (bshift x n) =
      bshift (encodeU E m ts B2 T H W x) n := by
  unfold encodeU
  split_ifs with h
  · exact tiledEncodeM_bshift E m ts B1 B2 T H W hH hW (hcrop h.1) x n
  · exact encoderForward_bshift E m T H W hpos x n

/-- Reading sample `b < B` of the batch concatenation of `B` size-1 slices
gives sample 0 of the `b`-th slice. -/
theorem catBatch1_map_range (f : Nat → T5) (B b : Nat) (hb : b < B)
    (c t h w : Nat) :
    catBatch1 ((List.range B).map f) b c t h w = f b 0 c t h w := by
  unfold catBatch1
  rw [List.getD_eq_getElem?_getD, List.getElem?_map, List.getElem?_range hb]
  rfl

/-- Pointwise value of the regularizer tail. -/
theorem regularizeTail_apply (r : String) (q : ℚ → ℚ) (z : T5)
    (b c t h w : Nat) :
    regularizeTail r q z b c t h w =
      if r = "kl" then z b c t h w else q (z b c t h w) := by
  unfold regularizeTail
  split
  · rfl
  · rfl

/-- C6: with slicing enabled, `encode` on a batch of `N > 1` samples returns
exactly the batch concatenation of `encode` applied to the `N` single-sample
slices, and this is numerically equal to the non-sliced encoding — because
every stage of the in-src encoder pipeline (causal convolutions, the 2D/1D
resnet blocks through the `(b t)` and `(b h w)` collapses of
`spatial_temporal_resblk`, the mixed temporal downsample, the mid
attention, and the tiled-encode crop/stitch/concatenate pass behind the
`_encode` dispatch) processes batch samples independently.  The validity
hypotheses ask for positive intermediate extents of the level loop (for the
whole batch and, when tiling is enabled, for every tile crop), which real
tensors satisfy. -/
theorem C6_slicing_equivalence (E : ExtMaps) (m : Encoder3DM)
    (ts : TilingState) (regularizer : String) (quant : ℚ → ℚ)
    (B T H W : Nat) (x : T5) (hB : 1 < B) (hH : 0 < H) (hW : 0 < W)
    (hpos : encPosB m.levels.length m.levels 0 T H W = true)
    (hcrop : ts.use_tiling = true → ∀ ii, ii < H → ∀ jj, jj < W →
      encPosB m.levels.length m.levels 0 T
        (min ts.tile_sample_min_height (H - ii))
        (min ts.tile_sample_min_width (W - jj)) = true)
    (b c t h w : Nat) (hb : b < B) :
    encodeM E m ts true regularizer quant B T H W x b c t h w =
      catBatch1 ((List.range B).map (fun i =>
        encodeM E m ts true regularizer quant 1 T H W (bshift x i)))
        b c t h w ∧
    encodeM E m ts true regularizer quant B T H W x b c t h w =
      encodeM E m ts false regularizer quant B T H W x b c t h w := by
  have hz : encodeU E m ts 1 T H W (bshift x b) 0 c t h w =
      encodeU E m ts B T H W x b c t h w := by
    rw [encodeU_bshift E m ts 1 B T H W hH hW hpos hcrop x b]
    rfl
  have hL : encodeM E m ts true regularizer quant B T H W x b c t h w =
      if regularizer = "kl" then encodeU E m ts B T H W x b c t h w
      else quant (encodeU E m ts B T H W x b c t h w) := by
    unfold encodeM
    rw [if_pos (⟨rfl, hB⟩ : true = true ∧ 1 < B), regularizeTail_apply,
      catBatch1_map_range _ B b hb, hz]
  have hR1 : catBatch1 ((List.range B).map (fun i =>
        encodeM E m ts true regularizer quant 1 T H W (bshift x i)))
        b c t h w =
      if regularizer = "kl" then encodeU E m ts B T H W x b c t h w
      else quant (encodeU E m ts B T H W x b c t h w) := by
    rw [catBatch1_map_range _ B b hb]
    unfold encodeM
    rw [if_neg (by simp : ¬(true = true ∧ 1 < 1)), regularizeTail_apply, hz]
  have hR2 : encodeM E m ts false regularizer quant B T H W x b c t h w =
      if regularizer = "kl" then encodeU E m ts B T H W x b c t h w
      else quant (encodeU E m ts B T H W x b c t h w) := by
    unfold encodeM
    rw [if_neg (by simp : ¬(false = true ∧ 1 < B)), regularizeTail_apply]
  exact ⟨hL.trans hR1.symm, hL.trans hR2.symm⟩

/-- C6 witness: the theorem applied to a concrete single-level encoder, a
concrete tiling state, and a batch of two samples. -/
theorem C6_slicing_equivalence_witness :
    encodeM extMapsW encW tsW6 true "kl" id 2 1 1 1 zero5 0 0 0 0 0 =
      catBatch1 ((List.range 2).map (fun i =>
        encodeM extMapsW encW tsW6 true "kl" id 1 1 1 1 (bshift zero5 i)))
        0 0 0 0 0 ∧
    encodeM extMapsW encW tsW6 true "kl" id 2 1 1 1 zero5 0 0 0 0 0 =
      encodeM extMapsW encW tsW6 false "kl" id 2 1 1 1 zero5 0 0 0 0 0 :=
  C6_slicing_equivalence extMapsW encW tsW6 "kl" id 2 1 1 1 zero5
    (by decide) (by decide) (by decide) (by rfl) (by decide) 0 0 0 0 0
    (by decide)
